import Mathlib

/-!
Verification of the Junior Church attendance ETL against its specification.

Two source programs are embedded:
* `Inc` — the incremental, store-backed weekly pipeline
  (`proposed_workflow/etl_pipeline.py`), whose persistent store (PostgreSQL)
  is modelled as explicit lists of rows with serial surrogate ids and an
  attendance uniqueness constraint realised by the ON CONFLICT membership test.
* `Batch` — the one-time in-memory load (`export_to_csv.py`), whose pandas
  dataframes are modelled as lists of records.

Spreadsheet scalars are modelled by `Cell`, which distinguishes an absent
column, an empty cell (pandas NaN), a string and a number, because the python
code's behaviour differs on all four (notably `str(NaN) = "nan"`).
-/

namespace JC

/-- Python str.strip(): drop leading and trailing whitespace. -/
def pyStrip (s : String) : String :=
  ⟨((s.data.dropWhile Char.isWhitespace).reverse.dropWhile Char.isWhitespace).reverse⟩

/-- Python str.upper(), also modelling SQL UPPER(): uppercase each character. -/
def pyUpper (s : String) : String := ⟨s.data.map Char.toUpper⟩

/-- Value of a non-empty all-digit character list, most significant first. -/
def digitsVal : List Char → Option Nat
  | [] => none
  | l =>
    l.foldl
      (fun acc c =>
        match acc with
        | none => none
        | some n => if c.isDigit then some (n * 10 + (c.toNat - 48)) else none)
      (some 0)

/-- Python int(string): optional sign, at least one digit, surrounding
whitespace tolerated; anything else raises ValueError (modelled as none). -/
def pyParseInt (s : String) : Option Int :=
  match (pyStrip s).data with
  | '-' :: rest => (digitsVal rest).map (fun n => -(n : Int))
  | '+' :: rest => (digitsVal rest).map (fun n => (n : Int))
  | l => (digitsVal l).map (fun n => (n : Int))

/-- Scalar cell of a spreadsheet row as seen through pandas: the column can be
absent from the sheet (`missing`, so `row.get` returns its default), present
but empty (pandas `NaN`), a string, or a number. -/
inductive Cell where
  | missing : Cell
  | nan : Cell
  | str : String → Cell
  | num : Int → Cell
deriving DecidableEq, Repr

/-- Python `str(row.get(label, default))`: an absent column yields the default,
an empty cell is NaN whose `str()` is the literal string "nan", numbers print
in decimal. -/
def Cell.pyStr (c : Cell) (dflt : String) : String :=
  match c with
  | .missing => dflt
  | .nan => "nan"
  | .str s => s
  | .num n => toString n

/-- Python truthiness of `row.get(label, "")`: the empty string and 0 are
falsy; NaN is truthy. -/
def Cell.truthy : Cell → Bool
  | .missing => false
  | .nan => true
  | .str s => s != ""
  | .num n => n != 0

/-- pandas `pd.isna` applied to `row.get(label)` fetched without a default
(an absent column gives `None`, which is also na). -/
def Cell.isna : Cell → Bool
  | .missing => true
  | .nan => true
  | .str _ => false
  | .num _ => false

/-- Model of the incremental pipeline's age cleaning: `row.get(label, 0)`
followed by `int(x) if not pd.isna(x) else 0`, all inside try/except that
falls back to 0, so absent, na and unparsable values give 0. -/
def Cell.toIntLossy : Cell → Int
  | .missing => 0
  | .nan => 0
  | .num n => n
  | .str s => (pyParseInt s).getD 0

/-- Model of the batch script's age cleaning: `int(row.get(label, 0)) if not
pd.isna(row.get(label)) else 0` with no exception handler, so an unparsable
string raises and the error propagates. -/
def Cell.toIntStrict : Cell → Except String Int
  | .missing => .ok 0
  | .nan => .ok 0
  | .num n => .ok n
  | .str s =>
    match pyParseInt s with
    | some n => .ok n
    | none => .error ("invalid literal for int: " ++ s)

/-- An attendance date as the python code carries it: a real calendar date,
or pandas NaT - which is what `pd.to_datetime(NaN).date()` yields without
raising when the timestamp cell is present but empty. -/
inductive AttDate where
  | NaT : AttDate
  | d : String → AttDate
deriving DecidableEq, Repr

/-- Modelled behaviour of `pd.to_datetime(ts).date()` on a truthy timestamp
cell: strings made of digits and dashes parse to themselves (standing for the
calendar-date part), numbers parse, an unparsable string raises, and a NaN
cell yields NaT without raising (`pd.to_datetime(NaN)` is NaT and
`NaT.date()` is again NaT). This abstracts the pandas datetime parser, of
which the pipeline logic only uses determinism, the existence of unparsable
values, and the NaT behaviour. -/
def pdToDate : Cell → Option AttDate
  | .str s =>
    if s != "" && s.data.all (fun ch => ch.isDigit || ch == '-') then some (.d s) else none
  | .num n => some (.d (toString n))
  | .missing => none
  | .nan => some .NaT

namespace Inc

/-- One Google-Form submission row of the incremental pipeline, holding the
cells the code reads. Child columns are indexed by the slot number 1..3. -/
structure IRow where
  yourName : Cell
  yourPhone : Cell
  yourGender : Cell
  timestamp : Cell
  whichService : Cell
  childName : Nat → Cell
  childAge : Nat → Cell
  childGender : Nat → Cell

/-- Row of the parents table (the columns the pipeline reads and writes). -/
structure Parent where
  parent_id : Nat
  full_name : String
  phone_number : String
  gender : String
deriving DecidableEq, Repr

/-- Row of the children table. -/
structure Child where
  child_id : Nat
  parent_id : Nat
  full_name : String
  age : Int
  gender : String
deriving DecidableEq, Repr

/-- Row of the attendance table; (child_id, service_name, attendance_date) is
the natural key carrying the uniqueness constraint. -/
structure AttRow where
  child_id : Nat
  service_name : String
  attendance_date : String
  was_present : Bool
deriving DecidableEq, Repr

/-- The persistent store: the three tables plus the serial id sequences. -/
structure Store where
  parents : List Parent
  children : List Child
  attendance : List AttRow
  nextParentId : Nat
  nextChildId : Nat
deriving DecidableEq, Repr

/-- The stats dictionary accumulated by process_attendance. -/
structure Stats where
  total_submissions : Nat
  new_parents : Nat
  existing_parents : Nat
  new_children : Nat
  existing_children : Nat
  attendance_recorded : Nat
  errors : Nat
deriving DecidableEq, Repr

/-- SELECT parent_id FROM parents WHERE phone_number = %s (first row or none). -/
def findParent (ps : List Parent) (phone : String) : Option Nat :=
  (ps.find? (fun p => p.phone_number == phone)).map (fun p => p.parent_id)

/-- SELECT child_id FROM children WHERE parent_id = %s AND
UPPER(full_name) = UPPER(%s) AND age = %s (first row or none). -/
def findChild (cs : List Child) (pid : Nat) (name : String) (age : Int) : Option Nat :=
  (cs.find? (fun c =>
    c.parent_id == pid && pyUpper c.full_name == pyUpper name && c.age == age)).map
    (fun c => c.child_id)

/-- Membership test for the attendance natural key, the ON CONFLICT target. -/
def attHas (l : List AttRow) (cid : Nat) (svc adate : String) : Bool :=
  l.any (fun a => a.child_id == cid && a.service_name == svc && a.attendance_date == adate)

/-- Cleaned parent name: `str(row.get("Your Name", "")).strip()`. -/
def rowName (r : IRow) : String := pyStrip (r.yourName.pyStr "")

/-- Cleaned parent phone: `str(row.get("Your Phone", "")).strip()`. -/
def rowPhone (r : IRow) : String := pyStrip (r.yourPhone.pyStr "")

/-- Cleaned parent gender with the Male/Female validation and Male default. -/
def rowGender (r : IRow) : String :=
  let g := pyStrip (r.yourGender.pyStr "Male")
  if g == "Male" || g == "Female" then g else "Male"

/-- Cleaned child-slot name: `str(row.get(f"Child n Name", "")).strip()`. -/
def slotName (r : IRow) (n : Nat) : String := pyStrip ((r.childName n).pyStr "")

/-- Cleaned child-slot age (lossy, defaults to 0). -/
def slotAge (r : IRow) (n : Nat) : Int := (r.childAge n).toIntLossy

/-- Cleaned child-slot gender with the Male/Female validation. -/
def slotGender (r : IRow) (n : Nat) : String :=
  let g := pyStrip ((r.childGender n).pyStr "Male")
  if g == "Male" || g == "Female" then g else "Male"

/-- Service name of the row: `str(row.get("Which Service", "First Service")).strip()`. -/
def serviceOf (r : IRow) : String := pyStrip (r.whichService.pyStr "First Service")

/-- Attendance date of a row: the date part of a truthy Timestamp cell
(NaT for an empty cell, which does not raise), today's date when the
timestamp is falsy; an unparsable timestamp string raises at `to_datetime`
(the error is caught by the per-row handler). -/
def rowDate (today : String) (r : IRow) : Except String AttDate :=
  if r.timestamp.truthy then
    match pdToDate r.timestamp with
    | some d => .ok d
    | none => .error "to_datetime"
  else .ok (.d today)

/-- PARENT find-or-create block (etl_pipeline lines 97-120): point lookup by
phone, INSERT RETURNING parent_id on miss. Returns store, stats, parent_id. -/
def resolveParent (s : Store) (stats : Stats) (name phone gender : String) :
    Store × Stats × Nat :=
  match findParent s.parents phone with
  | some pid => (s, { stats with existing_parents := stats.existing_parents + 1 }, pid)
  | none =>
    let pid := s.nextParentId
    ({ s with parents := s.parents ++ [⟨pid, name, phone, gender⟩], nextParentId := pid + 1 },
     { stats with new_parents := stats.new_parents + 1 }, pid)

/-- CHILD find-or-create block (etl_pipeline lines 147-175). -/
def resolveChild (s : Store) (stats : Stats) (pid : Nat) (name : String) (age : Int)
    (gender : String) : Store × Stats × Nat :=
  match findChild s.children pid name age with
  | some cid => (s, { stats with existing_children := stats.existing_children + 1 }, cid)
  | none =>
    let cid := s.nextChildId
    ({ s with
       children := s.children ++ [⟨cid, pid, name, age, gender⟩],
       nextChildId := cid + 1 },
     { stats with new_children := stats.new_children + 1 }, cid)

/-- ATTENDANCE insert with ON CONFLICT (child_id, service_name,
attendance_date) DO NOTHING (etl_pipeline lines 179-193); cursor.rowcount
decides whether attendance_recorded is bumped. -/
def recordAtt (s : Store) (stats : Stats) (cid : Nat) (svc adate : String) :
    Store × Stats :=
  if attHas s.attendance cid svc adate then (s, stats)
  else
    ({ s with attendance := s.attendance ++ [⟨cid, svc, adate, true⟩] },
     { stats with attendance_recorded := stats.attendance_recorded + 1 })

/-- One pass of the child loop body (etl_pipeline lines 123-193) for slot n:
skip when the cleaned name is empty, otherwise resolve the child and attempt
the attendance insert. -/
def processChildSlot (r : IRow) (pid : Nat) (adate : String) (st : Store × Stats)
    (n : Nat) : Store × Stats :=
  if slotName r n = "" then st
  else
    let rc := resolveChild st.1 st.2 pid (slotName r n) (slotAge r n) (slotGender r n)
    recordAtt rc.1 rc.2.1 rc.2.2 (serviceOf r) adate

/-- One pass of the child loop body when the row's attendance date may be
NaT. With a real date it is exactly `processChildSlot`; with NaT the child is
still resolved, but the attendance INSERT raises client-side - psycopg2
cannot adapt the NaTType parameter, so nothing is sent to the store - and the
exception propagates to the row-level handler carrying the state at raise
time (the child resolution's effects stand). -/
def processChildSlotE (r : IRow) (pid : Nat) (adate : AttDate) (st : Store × Stats)
    (n : Nat) : Except (Store × Stats) (Store × Stats) :=
  match adate with
  | .d ds => .ok (processChildSlot r pid ds st n)
  | .NaT =>
    if slotName r n = "" then .ok st
    else
      let rc := resolveChild st.1 st.2 pid (slotName r n) (slotAge r n) (slotGender r n)
      .error (rc.1, rc.2.1)

/-- The child loop over the given slots with exception propagation: the first
slot whose body raises aborts the remaining slots. -/
def foldSlotsE (r : IRow) (pid : Nat) (adate : AttDate) :
    List Nat → Store × Stats → Except (Store × Stats) (Store × Stats)
  | [], st => .ok st
  | n :: ns, st =>
    match processChildSlotE r pid adate st n with
    | .error e => .error e
    | .ok st2 => foldSlotsE r pid adate ns st2

/-- The child loop together with the row-level except handler: an exception
inside the loop is caught and counted as one error, the store effects applied
before the raise standing. -/
def runSlots (r : IRow) (pid : Nat) (adate : AttDate) (ns : List Nat)
    (st : Store × Stats) : Store × Stats :=
  match foldSlotsE r pid adate ns st with
  | .ok res => res
  | .error res => (res.1, { res.2 with errors := res.2.errors + 1 })

/-- One iteration of the submission loop (etl_pipeline lines 70-199): the
missing name/phone rejection, the timestamp-derived date (whose parse failure
is a caught per-row exception), the parent block and the child loop (whose
NaT attendance insert failure is the other caught exception). -/
def processRow (today : String) (st : Store × Stats) (r : IRow) : Store × Stats :=
  if rowPhone r = "" ∨ rowName r = "" then
    (st.1, { st.2 with errors := st.2.errors + 1 })
  else
    match rowDate today r with
    | .error _ => (st.1, { st.2 with errors := st.2.errors + 1 })
    | .ok adate =>
      let rp := resolveParent st.1 st.2 (rowName r) (rowPhone r) (rowGender r)
      runSlots r rp.2.2 adate [1, 2, 3] (rp.1, rp.2.1)

/-- Database connection state: the durable (committed) store, and the store as
seen from inside the open transaction. psycopg2 opens the transaction
implicitly; mutations become durable only at conn.commit(). -/
structure DB where
  committed : Store
  pending : Store
deriving DecidableEq, Repr

/-- Fresh stats dictionary for a run over n submissions. -/
def initStats (n : Nat) : Stats := ⟨n, 0, 0, 0, 0, 0, 0⟩

/-- process_attendance: the per-row loop followed by the single conn.commit()
at etl_pipeline line 201. -/
def process_attendance (df : List IRow) (today : String) (db : DB) : DB × Stats :=
  let r := df.foldl (processRow today) (db.pending, initStats df.length)
  (⟨r.1, r.1⟩, r.2)

/-- A run that dies after the first k rows, before reaching the final
conn.commit(): the transaction's pending state is the fold over the processed
rows, while the committed store is untouched. -/
def runUpTo (k : Nat) (df : List IRow) (today : String) (db : DB) : DB × Stats :=
  let r := (df.take k).foldl (processRow today) (db.pending, initStats df.length)
  (⟨db.committed, r.1⟩, r.2)

/-- The empty store with serial sequences starting at 1. -/
def emptyStore : Store := ⟨[], [], [], 1, 1⟩

/-- A fresh connection to a store: nothing pending beyond the durable state. -/
def conn (s : Store) : DB := ⟨s, s⟩

/-- Store extension: every table of s is an unmodified initial segment of the
corresponding table of s2 (rows are only ever appended, never updated). -/
def Ext (s s2 : Store) : Prop :=
  (∃ l, s2.parents = s.parents ++ l) ∧ (∃ l, s2.children = s.children ++ l) ∧
  (∃ l, s2.attendance = s.attendance ++ l)

/-- A child slot requires no further store mutation: the slot is empty, or its
child row and its attendance fact for the given date both already exist. -/
def SlotSettled (r : IRow) (pid : Nat) (adate : String) (s : Store) (n : Nat) : Prop :=
  slotName r n = "" ∨
  ∃ cid, findChild s.children pid (slotName r n) (slotAge r n) = some cid ∧
    attHas s.attendance cid (serviceOf r) adate = true

/-- What a NaT-dated row's child loop needs in order to write nothing: the
slots up to the first non-empty one are empty, and that first non-empty slot
(where the attendance insert raises) resolves to an existing child. Slots
after the raise are never reached. -/
def NatSettled (r : IRow) (pid : Nat) (s : Store) : List Nat → Prop
  | [] => True
  | n :: ns =>
    (slotName r n = "" ∧ NatSettled r pid s ns) ∨
    (slotName r n ≠ "" ∧
      ∃ cid, findChild s.children pid (slotName r n) (slotAge r n) = some cid)

/-- A row requires no further store mutation: it is rejected, its timestamp
string raises, it carries a NaT date with its parent and first non-empty
child already present, or its parent and every slot's facts are already in
the store. -/
def RowSettled (today : String) (r : IRow) (s : Store) : Prop :=
  (rowPhone r = "" ∨ rowName r = "") ∨ (∃ e, rowDate today r = .error e) ∨
  (∃ pid, rowDate today r = .ok AttDate.NaT ∧
    findParent s.parents (rowPhone r) = some pid ∧
    NatSettled r pid s [1, 2, 3]) ∨
  ∃ pid ds, rowDate today r = .ok (AttDate.d ds) ∧
    findParent s.parents (rowPhone r) = some pid ∧
    ∀ n ∈ ([1, 2, 3] : List Nat), SlotSettled r pid ds s n

/-- Between two stats values only the "existing entity" and error counters may
move: the three "new fact" counters are untouched. -/
def StatsQuiet (a b : Stats) : Prop :=
  b.new_parents = a.new_parents ∧ b.new_children = a.new_children ∧
  b.attendance_recorded = a.attendance_recorded

/-- Store well-formedness: surrogate child ids are below the serial sequence
value and pairwise distinct (what SERIAL PRIMARY KEY guarantees). -/
def StoreWF (s : Store) : Prop :=
  (∀ c ∈ s.children, c.child_id < s.nextChildId) ∧
  (s.children.map Child.child_id).Nodup

/-- Does this row hit the error counter: rejected for a missing identity
field, its timestamp string raises, or it carries a NaT date and has a
non-empty child slot (whose attendance insert then raises)? Independent of
the store state. -/
def rowFails (today : String) (r : IRow) : Bool :=
  decide (rowPhone r = "" ∨ rowName r = "") ||
    (match rowDate today r with
     | .error _ => true
     | .ok AttDate.NaT => [1, 2, 3].any (fun n => slotName r n != "")
     | .ok (AttDate.d _) => false)

end Inc

/-- drop_duplicates with keep='first': keeps the first record carrying each key. -/
def dedupKeepFirst {α β : Type} [DecidableEq β] (key : α → β) : List α → List α
  | [] => []
  | x :: xs => x :: (dedupKeepFirst key xs).filter (fun y => key y != key x)

namespace Batch

/-- One row of a service sheet of the batch workbook, holding the cells the
script reads. The ID column is accessed by direct indexing (row['ID']) and
used as a sort and dictionary key, so it is modelled as an integer field;
child columns are indexed by slot number 1..3. -/
structure BRow where
  origId : Int
  fullName : Cell
  email : Cell
  gender : Cell
  roleInChurch : Cell
  departmentInChurch : Cell
  phoneNumber : Cell
  secondaryPhoneNumber : Cell
  address : Cell
  childName : Nat → Cell
  childAge : Nat → Cell
  childGender : Nat → Cell
  childSpecialNeeds : Nat → Cell
  childRelationship : Nat → Cell
  checkin : Nat → Cell

/-- The workbook: one (sheet name, rows) pair per service. -/
abbrev Sheets := List (String × List BRow)

/-- The hard-coded run date of the batch script. -/
def ATTENDANCE_DATE : String := "2026-01-26"

/-- pd.concat of all sheets, in sheet order. -/
def combined (sheets : Sheets) : List BRow := (sheets.map (fun p => p.2)).flatten

/-- One insertion step of the sort by original id. -/
def insertById (r : BRow) : List BRow → List BRow
  | [] => [r]
  | x :: xs => if r.origId ≤ x.origId then r :: x :: xs else x :: insertById r xs

/-- Model of DataFrame.sort_values('original_id') as an insertion sort (the
ids are unique after the dedup, so which stable/unstable sort pandas uses is
observationally irrelevant). -/
def sortById (l : List BRow) : List BRow := l.foldr insertById []

/-- unique_parents: dedup on the ID column keeping the first sighting, then
sorted by id. -/
def uniqueParents (sheets : Sheets) : List BRow :=
  sortById (dedupKeepFirst (fun r => r.origId) (combined sheets))

/-- parent_id assignment: 1-based positions within the sorted unique parents. -/
def parentsWithIds (sheets : Sheets) : List (Nat × BRow) :=
  ((uniqueParents sheets).enum).map (fun p => (p.1 + 1, p.2))

/-- parent_mapping: original ID to assigned parent_id. -/
def parentMapping (sheets : Sheets) (oid : Int) : Option Nat :=
  ((parentsWithIds sheets).find? (fun p => p.2.origId == oid)).map (fun p => p.1)

/-- fillna('') on the Email column (an absent column would already have failed
the column selection, so only NaN cells are converted). -/
def fillnaEmpty (c : Cell) : Cell := if c.isna then Cell.str "" else c

/-- astype(str).replace('nan', '') on the phone columns. -/
def phoneStr (c : Cell) : String :=
  let s := c.pyStr "nan"
  if s == "nan" then "" else s

/-- Exported row of parents_final after the column conversions and renames. -/
structure ParentRec where
  parent_id : Nat
  original_id : Int
  full_name : Cell
  email : Cell
  gender : Cell
  role_in_church : Cell
  department_in_church : Cell
  phone_number : String
  secondary_phone_number : String
  address : Cell
deriving DecidableEq, Repr

/-- Conversion of one identified source row to its exported parent record. -/
def toParentRec (p : Nat × BRow) : ParentRec :=
  ⟨p.1, p.2.origId, p.2.fullName, fillnaEmpty p.2.email, p.2.gender, p.2.roleInChurch,
   p.2.departmentInChurch, phoneStr p.2.phoneNumber, phoneStr p.2.secondaryPhoneNumber,
   p.2.address⟩

/-- The parents_final table. -/
def parentsFinal (sheets : Sheets) : List ParentRec :=
  (parentsWithIds sheets).map toParentRec

/-- Child record as assembled in the children loop, including the dedupe_key. -/
structure ChildRec where
  parent_id : Nat
  full_name : String
  age : Int
  gender : String
  special_needs : Option String
  relationship_to_parent : String
  dedupe_key : String
deriving DecidableEq, Repr

/-- The f-string key f"parent_id_NAME_age" (name already stripped and
upper-cased by the caller). -/
def childKey (pid : Nat) (upperName : String) (age : Int) : String :=
  toString pid ++ "_" ++ upperName ++ "_" ++ toString age

/-- Slot skipped when pd.isna(name) or the name is blank after strip. -/
def slotEmpty (r : BRow) (n : Nat) : Bool :=
  (r.childName n).isna || pyStrip ((r.childName n).pyStr "None") == ""

/-- The cleaned child name of a slot: str(child_name).strip(). -/
def slotName (r : BRow) (n : Nat) : String := pyStrip ((r.childName n).pyStr "None")

/-- The child record built from slot n of a row (the int() call on the age can
raise, which aborts the whole script). -/
def childRecord (pid : Nat) (r : BRow) (n : Nat) : Except String ChildRec := do
  let age ← (r.childAge n).toIntStrict
  let name := slotName r n
  pure
    { parent_id := pid,
      full_name := name,
      age := age,
      gender := pyStrip ((r.childGender n).pyStr "Unknown"),
      special_needs :=
        if (r.childSpecialNeeds n).isna then none
        else some (pyStrip ((r.childSpecialNeeds n).pyStr "None")),
      relationship_to_parent :=
        if (r.childRelationship n).isna then "Child"
        else pyStrip ((r.childRelationship n).pyStr "None"),
      dedupe_key := childKey pid (pyUpper name) age }

/-- The child records contributed by one source row (rows whose ID is unknown
to the parent mapping are skipped). -/
def rowChildren (pmap : Int → Option Nat) (r : BRow) : Except String (List ChildRec) :=
  match pmap r.origId with
  | none => .ok []
  | some pid =>
    [1, 2, 3].foldlM
      (fun acc n =>
        if slotEmpty r n then pure acc
        else do
          let c ← childRecord pid r n
          pure (acc ++ [c]))
      []

/-- all_children: every child record of every row of every sheet, in order. -/
def allChildren (sheets : Sheets) : Except String (List ChildRec) :=
  (combined sheets).foldlM
    (fun acc r => do
      let cs ← rowChildren (parentMapping sheets) r
      pure (acc ++ cs))
    []

/-- children_unique: dedup on the dedupe_key keeping the first record. -/
def childrenUnique (sheets : Sheets) : Except String (List ChildRec) :=
  (allChildren sheets).map (dedupKeepFirst (fun c => c.dedupe_key))

/-- child_id assignment: 1-based positions within the deduped children. -/
def childrenWithIds (sheets : Sheets) : Except String (List (Nat × ChildRec)) :=
  (childrenUnique sheets).map (fun l => l.enum.map (fun p => (p.1 + 1, p.2)))

/-- child_lookup: recomputed key to child_id over the identified children. -/
def childLookup (l : List (Nat × ChildRec)) (k : String) : Option Nat :=
  (l.find? (fun p => childKey p.2.parent_id (pyUpper p.2.full_name) p.2.age == k)).map
    (fun p => p.1)

/-- Row of the attendance_final table. -/
structure AttendanceRec where
  child_id : Nat
  service_name : String
  attendance_date : String
  check_in_time : Option String
  check_out_time : Option String
  was_present : Bool
deriving DecidableEq, Repr

/-- was_present: the check-in column is in the row, not na, and == 1 (a string
cell never equals the integer 1 in python, so only a numeric 1 passes). -/
def wasPresent (r : BRow) (n : Nat) : Bool :=
  match r.checkin n with
  | .num v => v == 1
  | _ => false

/-- The attendance records contributed by one child slot of a row: skip empty
slots, parse the age (can raise), look the child up, and emit one record iff
the slot was present. -/
def slotAttendance (lookup : String → Option Nat) (pid : Nat) (svc : String)
    (r : BRow) (n : Nat) : Except String (List AttendanceRec) :=
  if slotEmpty r n then .ok []
  else
    match (r.childAge n).toIntStrict with
    | .error e => .error e
    | .ok age =>
      match lookup (childKey pid (pyUpper (slotName r n)) age) with
      | none => .ok []
      | some cid =>
        if wasPresent r n then
          .ok
            [({ child_id := cid, service_name := svc,
                attendance_date := ATTENDANCE_DATE, check_in_time := none,
                check_out_time := none, was_present := true } : AttendanceRec)]
        else .ok []

/-- The attendance records contributed by one row of one service sheet. -/
def rowAttendance (lookup : String → Option Nat) (pmap : Int → Option Nat)
    (svc : String) (r : BRow) : Except String (List AttendanceRec) :=
  match pmap r.origId with
  | none => .ok []
  | some pid =>
    [1, 2, 3].foldlM
      (fun acc n => do
        let a ← slotAttendance lookup pid svc r n
        pure (acc ++ a))
      []

/-- all_attendance: sheet-major traversal appending every row's records. -/
def allAttendance (sheets : Sheets) : Except String (List AttendanceRec) := do
  let cw ← childrenWithIds sheets
  sheets.foldlM
    (fun acc sh => do
      let fromSheet ← sh.2.foldlM
        (fun acc2 r => do
          let a ← rowAttendance (childLookup cw) (parentMapping sheets) sh.1 r
          pure (acc2 ++ a))
        []
      pure (acc ++ fromSheet))
    []

/-- The exported tables of one batch run. -/
structure Output where
  parents : List ParentRec
  children : List (Nat × ChildRec)
  attendance : List AttendanceRec
deriving DecidableEq, Repr

/-- The whole export script: unique parents, deduped children, attendance.
Any python exception (an unparsable age string) aborts the entire script,
modelled by the Except error short-circuiting the run. -/
def batchRun (sheets : Sheets) : Except String Output := do
  let cw ← childrenWithIds sheets
  let att ← allAttendance sheets
  pure ⟨parentsFinal sheets, cw, att⟩

/-- Number of attendance records carrying a given natural-key triple. -/
def tripleCount (l : List AttendanceRec) (cid : Nat) (svc adate : String) : Nat :=
  (l.filter (fun a =>
    a.child_id == cid && a.service_name == svc && a.attendance_date == adate)).length

end Batch

/-- Reference form of the decimal digit list produced by Nat.repr, used to
reason about the injectivity of the f-string child keys. -/
def natDigits (n : Nat) : List Char :=
  if h : n < 10 then [Nat.digitChar n]
  else natDigits (n / 10) ++ [Nat.digitChar (n % 10)]
termination_by n
decreasing_by
  exact Nat.div_lt_self (by omega) (by omega)

/-- Fixture helper: a row with every optional column absent. -/
def noCells : Nat → Cell := fun _ => Cell.missing

/-- Fixture helper: a cell present in child slot 1 only. -/
def onlySlot1 (c : Cell) : Nat → Cell := fun n => if n = 1 then c else Cell.missing

namespace Inc

/-- Fixture: a fully valid submission (Alice, phone 0801, child Bob age 7). -/
def rowAlice : IRow :=
  { yourName := .str "Alice", yourPhone := .str "0801", yourGender := .str "Female",
    timestamp := .missing, whichService := .missing,
    childName := onlySlot1 (.str "Bob"), childAge := onlySlot1 (.num 7),
    childGender := onlySlot1 (.str "Male") }

/-- Fixture: a second valid submission with a different phone. -/
def rowCarol : IRow :=
  { yourName := .str "Carol", yourPhone := .str "0802", yourGender := .str "Female",
    timestamp := .missing, whichService := .missing,
    childName := onlySlot1 (.str "Dan"), childAge := onlySlot1 (.num 9),
    childGender := onlySlot1 (.str "Male") }

/-- Fixture: a submission whose phone cell is present but empty (NaN). -/
def rowNanPhone : IRow :=
  { yourName := .str "Alice", yourPhone := .nan, yourGender := .str "Female",
    timestamp := .missing, whichService := .missing,
    childName := onlySlot1 (.str "Bob"), childAge := onlySlot1 (.num 7),
    childGender := onlySlot1 (.str "Male") }

/-- Fixture: a valid parent whose child-1 name cell is empty (NaN). -/
def rowNanChild : IRow :=
  { yourName := .str "Alice", yourPhone := .str "0801", yourGender := .str "Female",
    timestamp := .missing, whichService := .missing,
    childName := onlySlot1 .nan, childAge := onlySlot1 (.num 7),
    childGender := onlySlot1 (.str "Male") }

/-- Fixture: a store already holding Alice (phone 0801) and her child Bob. -/
def storeOne : Store :=
  ⟨[⟨1, "Alice", "0801", "Female"⟩], [⟨1, 1, "Bob", 7, "Male"⟩], [], 2, 2⟩

/-- Fixture: a valid parent whose child-1 age cell holds an unparsable string. -/
def rowBadAge : IRow :=
  { yourName := .str "Gail", yourPhone := .str "0804", yourGender := .str "Female",
    timestamp := .missing, whichService := .missing,
    childName := onlySlot1 (.str "Hal"), childAge := onlySlot1 (.str "seven"),
    childGender := onlySlot1 (.str "Male") }

/-- Fixture: a valid parent whose timestamp cell cannot be parsed. -/
def rowBadStamp : IRow :=
  { yourName := .str "Eve", yourPhone := .str "0803", yourGender := .str "Female",
    timestamp := .str "not a date", whichService := .missing,
    childName := onlySlot1 (.str "Fay"), childAge := onlySlot1 (.num 5),
    childGender := onlySlot1 (.str "Female") }

/-- Fixture: a valid parent with a child whose timestamp cell is empty (NaN),
so its attendance date is NaT. -/
def rowNanStamp : IRow :=
  { yourName := .str "Ivy", yourPhone := .str "0805", yourGender := .str "Female",
    timestamp := .nan, whichService := .missing,
    childName := onlySlot1 (.str "Joy"), childAge := onlySlot1 (.num 6),
    childGender := onlySlot1 (.str "Female") }

end Inc

namespace Batch

/-- Fixture: sheet row for parent 1 with child Jane age 8, given check-in cell. -/
def bJane (chk : Cell) : BRow :=
  { origId := 1, fullName := .str "P One", email := .missing, gender := .missing,
    roleInChurch := .missing, departmentInChurch := .missing,
    phoneNumber := .missing, secondaryPhoneNumber := .missing, address := .missing,
    childName := onlySlot1 (.str "Jane"), childAge := onlySlot1 (.num 8),
    childGender := onlySlot1 (.str "Female"), childSpecialNeeds := noCells,
    childRelationship := noCells, checkin := onlySlot1 chk }

/-- Fixture: the same checked-in source row appearing twice in one sheet. -/
def dupSheets : Sheets := [("First Service", [bJane (.num 1), bJane (.num 1)])]

/-- Fixture: a checked-in row whose age cell holds an unparsable string. -/
def bBadAge : BRow :=
  { origId := 1, fullName := .str "P One", email := .missing, gender := .missing,
    roleInChurch := .missing, departmentInChurch := .missing,
    phoneNumber := .missing, secondaryPhoneNumber := .missing, address := .missing,
    childName := onlySlot1 (.str "Jane"), childAge := onlySlot1 (.str "seven"),
    childGender := onlySlot1 (.str "Female"), childSpecialNeeds := noCells,
    childRelationship := noCells, checkin := onlySlot1 (.num 1) }

/-- Fixture: a workbook whose only row has the unparsable age. -/
def badAgeSheets : Sheets := [("First Service", [bBadAge])]

/-- Fixture: a workbook whose only row has a truthy check-in value of 2. -/
def chk2Sheets : Sheets := [("First Service", [bJane (.num 2)])]

/-- Fixture: a child lookup table holding only Jane's key. -/
def janeLookup : String → Option Nat := fun k => if k == "1_JANE_8" then some 1 else none

/-- Fixture: the child record the batch pipeline builds for Jane age 8. -/
def janeRec : ChildRec := ⟨1, "Jane", 8, "Female", none, "Child", "1_JANE_8"⟩

/-- Fixture: one row listing Jane age 8 in slot 1 and Jane age 9 in slot 2. -/
def twoAgeRow : BRow :=
  { origId := 1, fullName := .str "P One", email := .missing, gender := .missing,
    roleInChurch := .missing, departmentInChurch := .missing,
    phoneNumber := .missing, secondaryPhoneNumber := .missing, address := .missing,
    childName := fun n => if n ≤ 2 then .str "Jane" else .missing,
    childAge := fun n => if n = 1 then .num 8 else if n = 2 then .num 9 else .missing,
    childGender := fun n => if n ≤ 2 then .str "Female" else .missing,
    childSpecialNeeds := noCells, childRelationship := noCells,
    checkin := fun n => if n ≤ 2 then .num 1 else .missing }

/-- Fixture: a workbook with the two same-name different-age child slots. -/
def twoAgeSheets : Sheets := [("First Service", [twoAgeRow])]

end Batch

-- THEOREMS BELOW (definitions above this marker)

theorem find?_append_some {α : Type} {p : α → Bool} {l l2 : List α} {x : α}
    (h : l.find? p = some x) : (l ++ l2).find? p = some x := by
  induction l with
  | nil => simp at h
  | cons a as ih =>
    by_cases hp : p a
    · simp only [List.cons_append, List.find?_cons_of_pos _ hp] at h ⊢; exact h
    · simp only [List.cons_append, List.find?_cons_of_neg _ hp] at h ⊢; exact ih h

theorem find?_append_none {α : Type} {p : α → Bool} {l l2 : List α}
    (h : l.find? p = none) : (l ++ l2).find? p = l2.find? p := by
  induction l with
  | nil => simp
  | cons a as ih =>
    by_cases hp : p a
    · simp [List.find?_cons_of_pos _ hp] at h
    · simp only [List.cons_append, List.find?_cons_of_neg _ hp] at h ⊢; exact ih h

namespace Inc

theorem findParent_append {ps ps2 : List Parent} {phone : String} {pid : Nat}
    (h : findParent ps phone = some pid) : findParent (ps ++ ps2) phone = some pid := by
  unfold findParent at h ⊢
  cases hf : ps.find? (fun p => p.phone_number == phone) with
  | none => rw [hf] at h; simp at h
  | some p =>
    rw [hf] at h
    rw [find?_append_some hf]
    exact h

theorem findChild_append {cs cs2 : List Child} {pid : Nat} {name : String} {age : Int}
    {cid : Nat} (h : findChild cs pid name age = some cid) :
    findChild (cs ++ cs2) pid name age = some cid := by
  unfold findChild at h ⊢
  cases hf : cs.find? (fun c =>
      c.parent_id == pid && pyUpper c.full_name == pyUpper name && c.age == age) with
  | none => rw [hf] at h; simp at h
  | some c =>
    rw [hf] at h
    rw [find?_append_some hf]
    exact h

theorem attHas_append {l l2 : List AttRow} {cid : Nat} {svc adate : String}
    (h : attHas l cid svc adate = true) : attHas (l ++ l2) cid svc adate = true := by
  unfold attHas at h ⊢
  simp only [List.any_append, h, Bool.true_or]

theorem ext_refl (s : Store) : Ext s s :=
  ⟨⟨[], by simp⟩, ⟨[], by simp⟩, ⟨[], by simp⟩⟩

theorem ext_trans {a b c : Store} (h1 : Ext a b) (h2 : Ext b c) : Ext a c := by
  obtain ⟨⟨p1, hp1⟩, ⟨c1, hc1⟩, ⟨a1, ha1⟩⟩ := h1
  obtain ⟨⟨p2, hp2⟩, ⟨c2, hc2⟩, ⟨a2, ha2⟩⟩ := h2
  exact ⟨⟨p1 ++ p2, by rw [hp2, hp1, List.append_assoc]⟩,
         ⟨c1 ++ c2, by rw [hc2, hc1, List.append_assoc]⟩,
         ⟨a1 ++ a2, by rw [ha2, ha1, List.append_assoc]⟩⟩

theorem findParent_ext {s s2 : Store} {phone : String} {pid : Nat} (he : Ext s s2)
    (h : findParent s.parents phone = some pid) : findParent s2.parents phone = some pid := by
  obtain ⟨⟨l, hl⟩, -, -⟩ := he
  rw [hl]; exact findParent_append h

theorem findChild_ext {s s2 : Store} {pid : Nat} {name : String} {age : Int} {cid : Nat}
    (he : Ext s s2) (h : findChild s.children pid name age = some cid) :
    findChild s2.children pid name age = some cid := by
  obtain ⟨-, ⟨l, hl⟩, -⟩ := he
  rw [hl]; exact findChild_append h

theorem attHas_ext {s s2 : Store} {cid : Nat} {svc adate : String} (he : Ext s s2)
    (h : attHas s.attendance cid svc adate = true) :
    attHas s2.attendance cid svc adate = true := by
  obtain ⟨-, -, ⟨l, hl⟩⟩ := he
  rw [hl]; exact attHas_append h

theorem resolveParent_found {s : Store} {stats : Stats} {name phone gender : String}
    {pid : Nat} (h : findParent s.parents phone = some pid) :
    resolveParent s stats name phone gender =
      (s, { stats with existing_parents := stats.existing_parents + 1 }, pid) := by
  unfold resolveParent; rw [h]

theorem resolveParent_new {s : Store} {stats : Stats} {name phone gender : String}
    (h : findParent s.parents phone = none) :
    resolveParent s stats name phone gender =
      ({ s with
         parents := s.parents ++ [⟨s.nextParentId, name, phone, gender⟩],
         nextParentId := s.nextParentId + 1 },
       { stats with new_parents := stats.new_parents + 1 }, s.nextParentId) := by
  unfold resolveParent; rw [h]

theorem resolveChild_found {s : Store} {stats : Stats} {pid : Nat} {name : String}
    {age : Int} {gender : String} {cid : Nat} (h : findChild s.children pid name age = some cid) :
    resolveChild s stats pid name age gender =
      (s, { stats with existing_children := stats.existing_children + 1 }, cid) := by
  unfold resolveChild; rw [h]

theorem resolveChild_new {s : Store} {stats : Stats} {pid : Nat} {name : String}
    {age : Int} {gender : String} (h : findChild s.children pid name age = none) :
    resolveChild s stats pid name age gender =
      ({ s with
         children := s.children ++ [⟨s.nextChildId, pid, name, age, gender⟩],
         nextChildId := s.nextChildId + 1 },
       { stats with new_children := stats.new_children + 1 }, s.nextChildId) := by
  unfold resolveChild; rw [h]

theorem recordAtt_hit {s : Store} {stats : Stats} {cid : Nat} {svc adate : String}
    (h : attHas s.attendance cid svc adate = true) :
    recordAtt s stats cid svc adate = (s, stats) := by
  unfold recordAtt; rw [h]; simp

theorem recordAtt_miss {s : Store} {stats : Stats} {cid : Nat} {svc adate : String}
    (h : attHas s.attendance cid svc adate = false) :
    recordAtt s stats cid svc adate =
      ({ s with attendance := s.attendance ++ [⟨cid, svc, adate, true⟩] },
       { stats with attendance_recorded := stats.attendance_recorded + 1 }) := by
  unfold recordAtt; rw [h]; simp

theorem recordAtt_shape (s : Store) (stats : Stats) (cid : Nat) (svc adate : String) :
    (recordAtt s stats cid svc adate).1.parents = s.parents ∧
    (recordAtt s stats cid svc adate).1.children = s.children ∧
    (recordAtt s stats cid svc adate).1.nextParentId = s.nextParentId ∧
    (∃ l, (recordAtt s stats cid svc adate).1.attendance = s.attendance ++ l) ∧
    (recordAtt s stats cid svc adate).2.new_parents = stats.new_parents ∧
    (recordAtt s stats cid svc adate).2.new_children = stats.new_children ∧
    (recordAtt s stats cid svc adate).2.errors = stats.errors := by
  unfold recordAtt
  by_cases h : attHas s.attendance cid svc adate = true
  · rw [if_pos h]
    exact ⟨rfl, rfl, rfl, ⟨[], by simp⟩, rfl, rfl, rfl⟩
  · rw [if_neg h]
    exact ⟨rfl, rfl, rfl, ⟨_, rfl⟩, rfl, rfl, rfl⟩

theorem processChildSlot_shape (r : IRow) (pid : Nat) (adate : String)
    (s : Store) (stats : Stats) (n : Nat) :
    (processChildSlot r pid adate (s, stats) n).1.parents = s.parents ∧
    (processChildSlot r pid adate (s, stats) n).1.nextParentId = s.nextParentId ∧
    Ext s (processChildSlot r pid adate (s, stats) n).1 ∧
    (processChildSlot r pid adate (s, stats) n).2.new_parents = stats.new_parents ∧
    (processChildSlot r pid adate (s, stats) n).2.errors = stats.errors := by
  unfold processChildSlot
  by_cases hname : slotName r n = ""
  · rw [if_pos hname]; exact ⟨rfl, rfl, ext_refl s, rfl, rfl⟩
  · rw [if_neg hname]
    cases hf : findChild s.children pid (slotName r n) (slotAge r n) with
    | some cid =>
      rw [resolveChild_found hf]
      dsimp only
      obtain ⟨p1, c1, np1, ⟨l, a1⟩, q1, q2, q3⟩ :=
        recordAtt_shape s { stats with existing_children := stats.existing_children + 1 }
          cid (serviceOf r) adate
      exact ⟨p1, np1, ⟨⟨[], by simp [p1]⟩, ⟨[], by simp [c1]⟩, ⟨l, a1⟩⟩, q1, q3⟩
    | none =>
      rw [resolveChild_new hf]
      dsimp only
      obtain ⟨p1, c1, np1, ⟨l, a1⟩, q1, q2, q3⟩ :=
        recordAtt_shape
          { s with
            children := s.children ++
              [⟨s.nextChildId, pid, slotName r n, slotAge r n, slotGender r n⟩],
            nextChildId := s.nextChildId + 1 }
          { stats with new_children := stats.new_children + 1 }
          s.nextChildId (serviceOf r) adate
      exact ⟨p1, np1, ⟨⟨[], by simp [p1]⟩, ⟨_, c1⟩, ⟨l, a1⟩⟩, q1, q3⟩

theorem foldSlots_shape (r : IRow) (pid : Nat) (adate : String) :
    ∀ (ns : List Nat) (s : Store) (stats : Stats),
    (ns.foldl (processChildSlot r pid adate) (s, stats)).1.parents = s.parents ∧
    (ns.foldl (processChildSlot r pid adate) (s, stats)).1.nextParentId = s.nextParentId ∧
    Ext s (ns.foldl (processChildSlot r pid adate) (s, stats)).1 ∧
    (ns.foldl (processChildSlot r pid adate) (s, stats)).2.new_parents = stats.new_parents ∧
    (ns.foldl (processChildSlot r pid adate) (s, stats)).2.errors = stats.errors := by
  intro ns
  induction ns with
  | nil => intro s stats; exact ⟨rfl, rfl, ext_refl s, rfl, rfl⟩
  | cons n ns ih =>
    intro s stats
    simp only [List.foldl_cons]
    obtain ⟨h1, h2, h3, h4, h5⟩ := processChildSlot_shape r pid adate s stats n
    rcases hps : processChildSlot r pid adate (s, stats) n with ⟨s1, st1⟩
    rw [hps] at h1 h2 h3 h4 h5
    obtain ⟨g1, g2, g3, g4, g5⟩ := ih s1 st1
    exact ⟨g1.trans h1, g2.trans h2, ext_trans h3 g3, g4.trans h4, g5.trans h5⟩

theorem processRow_reject {today : String} {r : IRow}
    (h : rowPhone r = "" ∨ rowName r = "") (s : Store) (stats : Stats) :
    processRow today (s, stats) r = (s, { stats with errors := stats.errors + 1 }) := by
  unfold processRow; rw [if_pos h]

theorem processRow_raise {today : String} {r : IRow}
    (hrej : ¬(rowPhone r = "" ∨ rowName r = "")) {e : String}
    (herr : rowDate today r = .error e) (s : Store) (stats : Stats) :
    processRow today (s, stats) r = (s, { stats with errors := stats.errors + 1 }) := by
  unfold processRow; rw [if_neg hrej, herr]

theorem foldSlotsE_cons (r : IRow) (pid : Nat) (adate : AttDate) (n : Nat) (ns : List Nat)
    (st : Store × Stats) :
    foldSlotsE r pid adate (n :: ns) st =
      match processChildSlotE r pid adate st n with
      | .error e => .error e
      | .ok st2 => foldSlotsE r pid adate ns st2 := rfl

theorem foldSlotsE_d (r : IRow) (pid : Nat) (ds : String) :
    ∀ (ns : List Nat) (st : Store × Stats),
    foldSlotsE r pid (.d ds) ns st = .ok (ns.foldl (processChildSlot r pid ds) st) := by
  intro ns
  induction ns with
  | nil => intro st; rfl
  | cons n ns ih =>
    intro st
    rw [foldSlotsE_cons]
    simp only [List.foldl_cons]
    exact ih (processChildSlot r pid ds st n)

theorem runSlots_d (r : IRow) (pid : Nat) (ds : String) (ns : List Nat)
    (st : Store × Stats) :
    runSlots r pid (.d ds) ns st = ns.foldl (processChildSlot r pid ds) st := by
  unfold runSlots
  rw [foldSlotsE_d]

theorem runSlots_cons_ok {r : IRow} {pid : Nat} {adate : AttDate} {n : Nat}
    {st st2 : Store × Stats} (h : processChildSlotE r pid adate st n = .ok st2)
    (ns : List Nat) :
    runSlots r pid adate (n :: ns) st = runSlots r pid adate ns st2 := by
  unfold runSlots
  rw [foldSlotsE_cons, h]

theorem runSlots_cons_error {r : IRow} {pid : Nat} {adate : AttDate} {n : Nat}
    {st e : Store × Stats} (h : processChildSlotE r pid adate st n = .error e)
    (ns : List Nat) :
    runSlots r pid adate (n :: ns) st = (e.1, { e.2 with errors := e.2.errors + 1 }) := by
  unfold runSlots
  rw [foldSlotsE_cons, h]

theorem processChildSlotE_nat_empty {r : IRow} {n : Nat} (h : slotName r n = "")
    (pid : Nat) (st : Store × Stats) :
    processChildSlotE r pid .NaT st n = .ok st := by
  unfold processChildSlotE; rw [if_pos h]

theorem processChildSlotE_nat_nonempty {r : IRow} {n : Nat} (h : ¬ slotName r n = "")
    (pid : Nat) (st : Store × Stats) :
    processChildSlotE r pid .NaT st n =
      .error ((resolveChild st.1 st.2 pid (slotName r n) (slotAge r n) (slotGender r n)).1,
        (resolveChild st.1 st.2 pid (slotName r n) (slotAge r n) (slotGender r n)).2.1) := by
  unfold processChildSlotE; rw [if_neg h]

theorem resolveChild_shape (s : Store) (stats : Stats) (pid : Nat) (name : String)
    (age : Int) (gender : String) :
    (resolveChild s stats pid name age gender).1.parents = s.parents ∧
    (resolveChild s stats pid name age gender).1.attendance = s.attendance ∧
    (resolveChild s stats pid name age gender).1.nextParentId = s.nextParentId ∧
    (∃ l, (resolveChild s stats pid name age gender).1.children = s.children ++ l) ∧
    (resolveChild s stats pid name age gender).2.1.new_parents = stats.new_parents ∧
    (resolveChild s stats pid name age gender).2.1.attendance_recorded =
      stats.attendance_recorded ∧
    (resolveChild s stats pid name age gender).2.1.errors = stats.errors := by
  unfold resolveChild
  cases hf : findChild s.children pid name age with
  | some cid => exact ⟨rfl, rfl, rfl, ⟨[], by simp⟩, rfl, rfl, rfl⟩
  | none => exact ⟨rfl, rfl, rfl, ⟨_, rfl⟩, rfl, rfl, rfl⟩

theorem runSlots_nat (r : IRow) (pid : Nat) :
    ∀ (ns : List Nat) (s : Store) (stats : Stats),
    (runSlots r pid .NaT ns (s, stats)).1.parents = s.parents ∧
    (runSlots r pid .NaT ns (s, stats)).1.attendance = s.attendance ∧
    (runSlots r pid .NaT ns (s, stats)).1.nextParentId = s.nextParentId ∧
    Ext s (runSlots r pid .NaT ns (s, stats)).1 ∧
    (runSlots r pid .NaT ns (s, stats)).2.new_parents = stats.new_parents ∧
    (runSlots r pid .NaT ns (s, stats)).2.attendance_recorded =
      stats.attendance_recorded ∧
    (runSlots r pid .NaT ns (s, stats)).2.errors =
      stats.errors + (if ns.any (fun n => slotName r n != "") then 1 else 0) := by
  intro ns
  induction ns with
  | nil =>
    intro s stats
    exact ⟨rfl, rfl, rfl, ext_refl s, rfl, rfl, by simp [runSlots, foldSlotsE]⟩
  | cons n ns ih =>
    intro s stats
    by_cases hname : slotName r n = ""
    · rw [runSlots_cons_ok (processChildSlotE_nat_empty hname pid (s, stats)) ns]
      obtain ⟨h1, h2, h3, h4, h5, h6, h7⟩ := ih s stats
      refine ⟨h1, h2, h3, h4, h5, h6, ?_⟩
      rw [h7]
      have he : (slotName r n != "") = false := by rw [hname]; rfl
      simp [he]
    · rw [runSlots_cons_error (processChildSlotE_nat_nonempty hname pid (s, stats)) ns]
      obtain ⟨c1, c2, c3, ⟨l, c4⟩, c5, c6, c7⟩ := resolveChild_shape s stats pid
        (slotName r n) (slotAge r n) (slotGender r n)
      refine ⟨c1, c2, c3, ⟨⟨[], by simp [c1]⟩, ⟨l, c4⟩, ⟨[], by simp [c2]⟩⟩, c5, c6, ?_⟩
      have he : (slotName r n != "") = true := by
        cases hz : (slotName r n != "") with
        | true => rfl
        | false => exact absurd (by simpa using hz) hname
      show (resolveChild s stats pid (slotName r n) (slotAge r n)
        (slotGender r n)).2.1.errors + 1 = _
      rw [c7]
      simp [he]

theorem processRow_ok {today : String} {r : IRow}
    (hrej : ¬(rowPhone r = "" ∨ rowName r = "")) {ds : String}
    (hok : rowDate today r = .ok (AttDate.d ds)) (s : Store) (stats : Stats) :
    processRow today (s, stats) r =
      [1, 2, 3].foldl
        (processChildSlot r (resolveParent s stats (rowName r) (rowPhone r) (rowGender r)).2.2
          ds)
        ((resolveParent s stats (rowName r) (rowPhone r) (rowGender r)).1,
         (resolveParent s stats (rowName r) (rowPhone r) (rowGender r)).2.1) := by
  unfold processRow; rw [if_neg hrej, hok]
  exact runSlots_d r _ ds [1, 2, 3] _

theorem processRow_nat {today : String} {r : IRow}
    (hrej : ¬(rowPhone r = "" ∨ rowName r = ""))
    (hok : rowDate today r = .ok AttDate.NaT) (s : Store) (stats : Stats) :
    processRow today (s, stats) r =
      runSlots r (resolveParent s stats (rowName r) (rowPhone r) (rowGender r)).2.2
        AttDate.NaT [1, 2, 3]
        ((resolveParent s stats (rowName r) (rowPhone r) (rowGender r)).1,
         (resolveParent s stats (rowName r) (rowPhone r) (rowGender r)).2.1) := by
  unfold processRow; rw [if_neg hrej, hok]

theorem resolveParent_ext (s : Store) (stats : Stats) (name phone gender : String) :
    Ext s (resolveParent s stats name phone gender).1 := by
  unfold resolveParent
  cases hf : findParent s.parents phone with
  | some pid => exact ext_refl s
  | none => exact ⟨⟨_, rfl⟩, ⟨[], by simp⟩, ⟨[], by simp⟩⟩

theorem processRow_ext (today : String) (r : IRow) (s : Store) (stats : Stats) :
    Ext s (processRow today (s, stats) r).1 := by
  by_cases hrej : rowPhone r = "" ∨ rowName r = ""
  · rw [processRow_reject hrej]; exact ext_refl s
  · cases hd : rowDate today r with
    | error e => rw [processRow_raise hrej hd]; exact ext_refl s
    | ok adate =>
      cases adate with
      | d ds =>
        rw [processRow_ok hrej hd]
        exact ext_trans (resolveParent_ext s stats (rowName r) (rowPhone r) (rowGender r))
          (foldSlots_shape r _ ds [1, 2, 3] _ _).2.2.1
      | NaT =>
        rw [processRow_nat hrej hd]
        exact ext_trans (resolveParent_ext s stats (rowName r) (rowPhone r) (rowGender r))
          (runSlots_nat r _ [1, 2, 3] _ _).2.2.2.1

theorem foldRows_ext (today : String) :
    ∀ (df : List IRow) (s : Store) (stats : Stats),
    Ext s (df.foldl (processRow today) (s, stats)).1 := by
  intro df
  induction df with
  | nil => intro s stats; exact ext_refl s
  | cons r rs ih =>
    intro s stats
    simp only [List.foldl_cons]
    rcases hps : processRow today (s, stats) r with ⟨s1, st1⟩
    have h := processRow_ext today r s stats
    rw [hps] at h
    exact ext_trans h (ih s1 st1)

theorem quiet_refl (a : Stats) : StatsQuiet a a := ⟨rfl, rfl, rfl⟩

theorem quiet_trans {a b c : Stats} (h1 : StatsQuiet a b) (h2 : StatsQuiet b c) :
    StatsQuiet a c :=
  ⟨h2.1.trans h1.1, h2.2.1.trans h1.2.1, h2.2.2.trans h1.2.2⟩

theorem slotSettled_mono {r : IRow} {pid : Nat} {adate : String} {s s2 : Store} {n : Nat}
    (he : Ext s s2) (hs : SlotSettled r pid adate s n) : SlotSettled r pid adate s2 n := by
  rcases hs with h | ⟨cid, hf, ha⟩
  · exact Or.inl h
  · exact Or.inr ⟨cid, findChild_ext he hf, attHas_ext he ha⟩

theorem natSettled_mono {r : IRow} {pid : Nat} {s s2 : Store} (he : Ext s s2) :
    ∀ (ns : List Nat), NatSettled r pid s ns → NatSettled r pid s2 ns := by
  intro ns
  induction ns with
  | nil => intro h; trivial
  | cons n ns ih =>
    intro h
    unfold NatSettled at h ⊢
    rcases h with ⟨h1, h2⟩ | ⟨h1, cid, hf⟩
    · exact Or.inl ⟨h1, ih h2⟩
    · exact Or.inr ⟨h1, cid, findChild_ext he hf⟩

theorem rowSettled_mono {today : String} {r : IRow} {s s2 : Store}
    (he : Ext s s2) (hs : RowSettled today r s) : RowSettled today r s2 := by
  rcases hs with h | h | ⟨pid, hd, hp, hnat⟩ | ⟨pid, ds, hd, hp, hslots⟩
  · exact Or.inl h
  · exact Or.inr (Or.inl h)
  · exact Or.inr (Or.inr (Or.inl ⟨pid, hd, findParent_ext he hp,
      natSettled_mono he [1, 2, 3] hnat⟩))
  · exact Or.inr (Or.inr (Or.inr ⟨pid, ds, hd, findParent_ext he hp,
      fun n hn => slotSettled_mono he (hslots n hn)⟩))

theorem findParent_insert (ps : List Parent) (phone name gender : String) (pid : Nat)
    (h : findParent ps phone = none) :
    findParent (ps ++ [⟨pid, name, phone, gender⟩]) phone = some pid := by
  unfold findParent at h ⊢
  cases hf : ps.find? (fun p => p.phone_number == phone) with
  | some p => rw [hf] at h; simp at h
  | none => rw [find?_append_none hf]; simp

theorem findChild_insert (cs : List Child) (pid : Nat) (name : String) (age : Int)
    (gender : String) (cid : Nat) (h : findChild cs pid name age = none) :
    findChild (cs ++ [⟨cid, pid, name, age, gender⟩]) pid name age = some cid := by
  unfold findChild at h ⊢
  cases hf : cs.find? (fun c =>
      c.parent_id == pid && pyUpper c.full_name == pyUpper name && c.age == age) with
  | some c => rw [hf] at h; simp at h
  | none => rw [find?_append_none hf]; simp

theorem recordAtt_has (s : Store) (stats : Stats) (cid : Nat) (svc adate : String) :
    attHas (recordAtt s stats cid svc adate).1.attendance cid svc adate = true := by
  unfold recordAtt
  by_cases h : attHas s.attendance cid svc adate = true
  · rw [if_pos h]; exact h
  · rw [if_neg h]
    unfold attHas
    simp

theorem resolveParent_findParent (s : Store) (stats : Stats) (name phone gender : String) :
    findParent (resolveParent s stats name phone gender).1.parents phone =
      some (resolveParent s stats name phone gender).2.2 := by
  unfold resolveParent
  cases hf : findParent s.parents phone with
  | some pid => dsimp only; exact hf
  | none => dsimp only; exact findParent_insert s.parents phone name gender s.nextParentId hf

theorem runSlots_nat_establish (r : IRow) (pid : Nat) :
    ∀ (ns : List Nat) (s : Store) (stats : Stats),
    NatSettled r pid (runSlots r pid .NaT ns (s, stats)).1 ns := by
  intro ns
  induction ns with
  | nil => intro s stats; trivial
  | cons n ns ih =>
    intro s stats
    unfold NatSettled
    by_cases hname : slotName r n = ""
    · rw [runSlots_cons_ok (processChildSlotE_nat_empty hname pid (s, stats)) ns]
      exact Or.inl ⟨hname, ih s stats⟩
    · rw [runSlots_cons_error (processChildSlotE_nat_nonempty hname pid (s, stats)) ns]
      dsimp only
      refine Or.inr ⟨hname, ?_⟩
      cases hf : findChild s.children pid (slotName r n) (slotAge r n) with
      | some cid =>
        rw [resolveChild_found hf]
        exact ⟨cid, hf⟩
      | none =>
        rw [resolveChild_new hf]
        exact ⟨s.nextChildId, findChild_insert s.children pid (slotName r n) (slotAge r n)
          (slotGender r n) s.nextChildId hf⟩

theorem runSlots_nat_noop (r : IRow) (pid : Nat) :
    ∀ (ns : List Nat) (s : Store), NatSettled r pid s ns → ∀ (stats : Stats),
    (runSlots r pid .NaT ns (s, stats)).1 = s ∧
    StatsQuiet stats (runSlots r pid .NaT ns (s, stats)).2 := by
  intro ns
  induction ns with
  | nil => intro s hset stats; exact ⟨rfl, rfl, rfl, rfl⟩
  | cons n ns ih =>
    intro s hset stats
    unfold NatSettled at hset
    rcases hset with ⟨h1, h2⟩ | ⟨h1, cid, hf⟩
    · rw [runSlots_cons_ok (processChildSlotE_nat_empty h1 pid (s, stats)) ns]
      exact ih s h2 stats
    · rw [runSlots_cons_error (processChildSlotE_nat_nonempty h1 pid (s, stats)) ns]
      dsimp only
      rw [resolveChild_found hf]
      exact ⟨rfl, rfl, rfl, rfl⟩

theorem processChildSlot_settled {r : IRow} {pid : Nat} {adate : String} {s : Store}
    {n : Nat} (hs : SlotSettled r pid adate s n) (stats : Stats) :
    (processChildSlot r pid adate (s, stats) n).1 = s ∧
    StatsQuiet stats (processChildSlot r pid adate (s, stats) n).2 := by
  unfold processChildSlot
  by_cases hname : slotName r n = ""
  · rw [if_pos hname]; exact ⟨rfl, rfl, rfl, rfl⟩
  · rw [if_neg hname]
    rcases hs with h | ⟨cid, hf, ha⟩
    · exact absurd h hname
    · rw [resolveChild_found hf]
      dsimp only
      rw [recordAtt_hit ha]
      exact ⟨rfl, rfl, rfl, rfl⟩

theorem processChildSlot_establish (r : IRow) (pid : Nat) (adate : String)
    (s : Store) (stats : Stats) (n : Nat) :
    SlotSettled r pid adate (processChildSlot r pid adate (s, stats) n).1 n := by
  unfold processChildSlot
  by_cases hname : slotName r n = ""
  · rw [if_pos hname]; exact Or.inl hname
  · rw [if_neg hname]
    cases hf : findChild s.children pid (slotName r n) (slotAge r n) with
    | some cid =>
      rw [resolveChild_found hf]
      dsimp only
      refine Or.inr ⟨cid, ?_, ?_⟩
      · have c1 := (recordAtt_shape s
          { stats with existing_children := stats.existing_children + 1 }
          cid (serviceOf r) adate).2.1
        rw [c1]; exact hf
      · exact recordAtt_has s _ cid (serviceOf r) adate
    | none =>
      rw [resolveChild_new hf]
      dsimp only
      refine Or.inr ⟨s.nextChildId, ?_, ?_⟩
      · have c1 := (recordAtt_shape
          { s with
            children := s.children ++
              [⟨s.nextChildId, pid, slotName r n, slotAge r n, slotGender r n⟩],
            nextChildId := s.nextChildId + 1 }
          { stats with new_children := stats.new_children + 1 }
          s.nextChildId (serviceOf r) adate).2.1
        rw [c1]
        exact findChild_insert s.children pid (slotName r n) (slotAge r n)
          (slotGender r n) s.nextChildId hf
      · exact recordAtt_has _ _ s.nextChildId (serviceOf r) adate

theorem foldSlots_establish (r : IRow) (pid : Nat) (adate : String) :
    ∀ (ns : List Nat) (s : Store) (stats : Stats) (n : Nat), n ∈ ns →
    SlotSettled r pid adate ((ns.foldl (processChildSlot r pid adate) (s, stats)).1) n := by
  intro ns
  induction ns with
  | nil => intro s stats n hn; cases hn
  | cons m ms ih =>
    intro s stats n hn
    simp only [List.foldl_cons]
    rcases hps : processChildSlot r pid adate (s, stats) m with ⟨s1, st1⟩
    rcases List.mem_cons.mp hn with rfl | hn2
    · have hest := processChildSlot_establish r pid adate s stats n
      rw [hps] at hest
      exact slotSettled_mono (foldSlots_shape r pid adate ms s1 st1).2.2.1 hest
    · exact ih s1 st1 n hn2

theorem foldSlots_settled {r : IRow} {pid : Nat} {adate : String} :
    ∀ (ns : List Nat) (s : Store),
    (∀ n ∈ ns, SlotSettled r pid adate s n) → ∀ (stats : Stats),
    (ns.foldl (processChildSlot r pid adate) (s, stats)).1 = s ∧
    StatsQuiet stats (ns.foldl (processChildSlot r pid adate) (s, stats)).2 := by
  intro ns
  induction ns with
  | nil => intro s hset stats; exact ⟨rfl, rfl, rfl, rfl⟩
  | cons m ms ih =>
    intro s hset stats
    simp only [List.foldl_cons]
    obtain ⟨h1, h2⟩ := processChildSlot_settled (hset m (List.mem_cons_self m ms)) stats
    rcases hps : processChildSlot r pid adate (s, stats) m with ⟨s1, st1⟩
    rw [hps] at h1 h2
    subst h1
    obtain ⟨g1, g2⟩ := ih s1 (fun n hn => hset n (List.mem_cons_of_mem m hn)) st1
    exact ⟨g1, quiet_trans h2 g2⟩

theorem processRow_establish (today : String) (r : IRow) (s : Store) (stats : Stats) :
    RowSettled today r (processRow today (s, stats) r).1 := by
  by_cases hrej : rowPhone r = "" ∨ rowName r = ""
  · exact Or.inl hrej
  · cases hd : rowDate today r with
    | error e => exact Or.inr (Or.inl ⟨e, hd⟩)
    | ok adate =>
      cases adate with
      | d ds =>
        rw [processRow_ok hrej hd]
        refine Or.inr (Or.inr (Or.inr
          ⟨(resolveParent s stats (rowName r) (rowPhone r) (rowGender r)).2.2, ds, hd,
           ?_, ?_⟩))
        · have hpar := (foldSlots_shape r
            (resolveParent s stats (rowName r) (rowPhone r) (rowGender r)).2.2 ds [1, 2, 3]
            (resolveParent s stats (rowName r) (rowPhone r) (rowGender r)).1
            (resolveParent s stats (rowName r) (rowPhone r) (rowGender r)).2.1).1
          rw [hpar]
          exact resolveParent_findParent s stats (rowName r) (rowPhone r) (rowGender r)
        · intro n hn
          exact foldSlots_establish r _ ds [1, 2, 3] _ _ n hn
      | NaT =>
        rw [processRow_nat hrej hd]
        refine Or.inr (Or.inr (Or.inl
          ⟨(resolveParent s stats (rowName r) (rowPhone r) (rowGender r)).2.2, hd,
           ?_, ?_⟩))
        · have hpar := (runSlots_nat r
            (resolveParent s stats (rowName r) (rowPhone r) (rowGender r)).2.2 [1, 2, 3]
            (resolveParent s stats (rowName r) (rowPhone r) (rowGender r)).1
            (resolveParent s stats (rowName r) (rowPhone r) (rowGender r)).2.1).1
          rw [hpar]
          exact resolveParent_findParent s stats (rowName r) (rowPhone r) (rowGender r)
        · exact runSlots_nat_establish r _ [1, 2, 3] _ _

theorem processRow_settled {today : String} {r : IRow} {s : Store}
    (hs : RowSettled today r s) (stats : Stats) :
    (processRow today (s, stats) r).1 = s ∧
    StatsQuiet stats (processRow today (s, stats) r).2 := by
  rcases hs with hrej | ⟨e, herr⟩ | ⟨pid, hd, hp, hnat⟩ | ⟨pid, ds, hd, hp, hslots⟩
  · rw [processRow_reject hrej]; exact ⟨rfl, rfl, rfl, rfl⟩
  · by_cases hrej : rowPhone r = "" ∨ rowName r = ""
    · rw [processRow_reject hrej]; exact ⟨rfl, rfl, rfl, rfl⟩
    · rw [processRow_raise hrej herr]; exact ⟨rfl, rfl, rfl, rfl⟩
  · by_cases hrej : rowPhone r = "" ∨ rowName r = ""
    · rw [processRow_reject hrej]; exact ⟨rfl, rfl, rfl, rfl⟩
    · rw [processRow_nat hrej hd, resolveParent_found hp]
      dsimp only
      obtain ⟨g1, g2⟩ := runSlots_nat_noop r pid [1, 2, 3] s hnat
        { stats with existing_parents := stats.existing_parents + 1 }
      exact ⟨g1, quiet_trans ⟨rfl, rfl, rfl⟩ g2⟩
  · by_cases hrej : rowPhone r = "" ∨ rowName r = ""
    · rw [processRow_reject hrej]; exact ⟨rfl, rfl, rfl, rfl⟩
    · rw [processRow_ok hrej hd, resolveParent_found hp]
      dsimp only
      obtain ⟨g1, g2⟩ := foldSlots_settled [1, 2, 3] s hslots
        { stats with existing_parents := stats.existing_parents + 1 }
      exact ⟨g1, quiet_trans ⟨rfl, rfl, rfl⟩ g2⟩

theorem foldRows_settled (today : String) :
    ∀ (df : List IRow) (s : Store) (stats : Stats) (r : IRow), r ∈ df →
    RowSettled today r ((df.foldl (processRow today) (s, stats)).1) := by
  intro df
  induction df with
  | nil => intro s stats r hr; cases hr
  | cons x xs ih =>
    intro s stats r hr
    simp only [List.foldl_cons]
    rcases hps : processRow today (s, stats) x with ⟨s1, st1⟩
    rcases List.mem_cons.mp hr with rfl | hr2
    · have hest := processRow_establish today r s stats
      rw [hps] at hest
      exact rowSettled_mono (foldRows_ext today xs s1 st1) hest
    · exact ih s1 st1 r hr2

theorem resolveParent_stats (s : Store) (stats : Stats) (name phone gender : String) :
    (resolveParent s stats name phone gender).2.1.errors = stats.errors := by
  unfold resolveParent
  cases hf : findParent s.parents phone with
  | some pid => rfl
  | none => rfl

theorem processRow_errors (today : String) (r : IRow) (s : Store) (stats : Stats) :
    (processRow today (s, stats) r).2.errors =
      stats.errors + (if rowFails today r = true then 1 else 0) := by
  by_cases hrej : rowPhone r = "" ∨ rowName r = ""
  · rw [processRow_reject hrej]
    have hf : rowFails today r = true := by
      unfold rowFails
      rw [decide_eq_true hrej]
      simp
    rw [hf]
    simp
  · cases hd : rowDate today r with
    | error e =>
      rw [processRow_raise hrej hd]
      have hf : rowFails today r = true := by
        unfold rowFails
        rw [hd, decide_eq_false hrej]
        simp
      rw [hf]
      simp
    | ok adate =>
      cases adate with
      | d ds =>
        rw [processRow_ok hrej hd]
        have hf : rowFails today r = false := by
          unfold rowFails
          rw [hd, decide_eq_false hrej]
          simp
        rw [hf]
        have h1 := (foldSlots_shape r
          (resolveParent s stats (rowName r) (rowPhone r) (rowGender r)).2.2 ds [1, 2, 3]
          (resolveParent s stats (rowName r) (rowPhone r) (rowGender r)).1
          (resolveParent s stats (rowName r) (rowPhone r) (rowGender r)).2.1).2.2.2.2
        rw [h1, resolveParent_stats]
        simp
      | NaT =>
        rw [processRow_nat hrej hd]
        have hf : rowFails today r = [1, 2, 3].any (fun n => slotName r n != "") := by
          unfold rowFails
          rw [hd, decide_eq_false hrej]
          simp
        rw [hf]
        have h1 := (runSlots_nat r
          (resolveParent s stats (rowName r) (rowPhone r) (rowGender r)).2.2 [1, 2, 3]
          (resolveParent s stats (rowName r) (rowPhone r) (rowGender r)).1
          (resolveParent s stats (rowName r) (rowPhone r) (rowGender r)).2.1).2.2.2.2.2.2
        rw [h1, resolveParent_stats]

theorem foldRows_errors (today : String) :
    ∀ (df : List IRow) (s : Store) (stats : Stats),
    (df.foldl (processRow today) (s, stats)).2.errors =
      stats.errors + df.countP (rowFails today) := by
  intro df
  induction df with
  | nil => intro s stats; simp
  | cons x xs ih =>
    intro s stats
    simp only [List.foldl_cons]
    have h1 := processRow_errors today x s stats
    rcases hps : processRow today (s, stats) x with ⟨s1, st1⟩
    rw [hps] at h1
    rw [ih s1 st1, h1, List.countP_cons]
    by_cases hx : rowFails today x = true
    · rw [hx]; simp; omega
    · have hxf : rowFails today x = false := by
        cases hz : rowFails today x with
        | false => rfl
        | true => exact absurd hz hx
      rw [hxf]; simp

theorem attHas_append_false {l l2 : List AttRow} {cid : Nat} {svc adate : String}
    (h : attHas (l ++ l2) cid svc adate = false) : attHas l cid svc adate = false := by
  cases hh : attHas l cid svc adate with
  | false => rfl
  | true => rw [attHas_append hh] at h; simp at h

theorem resolveParent_shape (s : Store) (stats : Stats) (name phone gender : String) :
    (resolveParent s stats name phone gender).1.children = s.children ∧
    (resolveParent s stats name phone gender).1.attendance = s.attendance ∧
    (resolveParent s stats name phone gender).1.nextChildId = s.nextChildId := by
  unfold resolveParent
  cases hf : findParent s.parents phone with
  | some pid => exact ⟨rfl, rfl, rfl⟩
  | none => exact ⟨rfl, rfl, rfl⟩

theorem processChildSlot_att (r : IRow) (pid : Nat) (adate : String) (s : Store)
    (stats : Stats) (n : Nat) :
    ∃ l, (processChildSlot r pid adate (s, stats) n).1.attendance = s.attendance ++ l ∧
      ∀ a ∈ l, a.service_name = serviceOf r ∧ a.attendance_date = adate ∧
        attHas s.attendance a.child_id a.service_name a.attendance_date = false := by
  unfold processChildSlot
  by_cases hname : slotName r n = ""
  · rw [if_pos hname]; exact ⟨[], by simp, by simp⟩
  · rw [if_neg hname]
    cases hf : findChild s.children pid (slotName r n) (slotAge r n) with
    | some cid =>
      rw [resolveChild_found hf]
      dsimp only
      unfold recordAtt
      by_cases hh : attHas s.attendance cid (serviceOf r) adate = true
      · rw [if_pos hh]; exact ⟨[], by simp, by simp⟩
      · rw [if_neg hh]
        refine ⟨[⟨cid, serviceOf r, adate, true⟩], rfl, ?_⟩
        intro a ha
        rw [List.mem_singleton] at ha
        subst ha
        refine ⟨rfl, rfl, ?_⟩
        cases hx : attHas s.attendance cid (serviceOf r) adate with
        | false => rfl
        | true => exact absurd hx hh
    | none =>
      rw [resolveChild_new hf]
      dsimp only
      unfold recordAtt
      by_cases hh : attHas s.attendance s.nextChildId (serviceOf r) adate = true
      · rw [if_pos hh]; exact ⟨[], by simp, by simp⟩
      · rw [if_neg hh]
        refine ⟨[⟨s.nextChildId, serviceOf r, adate, true⟩], rfl, ?_⟩
        intro a ha
        rw [List.mem_singleton] at ha
        subst ha
        refine ⟨rfl, rfl, ?_⟩
        cases hx : attHas s.attendance s.nextChildId (serviceOf r) adate with
        | false => rfl
        | true => exact absurd hx hh

theorem foldSlots_att (r : IRow) (pid : Nat) (adate : String) :
    ∀ (ns : List Nat) (s : Store) (stats : Stats),
    ∃ l, (ns.foldl (processChildSlot r pid adate) (s, stats)).1.attendance
        = s.attendance ++ l ∧
      ∀ a ∈ l, a.service_name = serviceOf r ∧ a.attendance_date = adate ∧
        attHas s.attendance a.child_id a.service_name a.attendance_date = false := by
  intro ns
  induction ns with
  | nil => intro s stats; exact ⟨[], by simp, by simp⟩
  | cons m ms ih =>
    intro s stats
    simp only [List.foldl_cons]
    obtain ⟨l1, e1, p1⟩ := processChildSlot_att r pid adate s stats m
    rcases hps : processChildSlot r pid adate (s, stats) m with ⟨s1, st1⟩
    rw [hps] at e1
    obtain ⟨l2, e2, p2⟩ := ih s1 st1
    refine ⟨l1 ++ l2, ?_, ?_⟩
    · rw [e2, e1, List.append_assoc]
    · intro a ha
      rcases List.mem_append.mp ha with h | h
      · exact p1 a h
      · obtain ⟨q1, q2, q3⟩ := p2 a h
        rw [e1] at q3
        exact ⟨q1, q2, attHas_append_false q3⟩

theorem processRow_att (today : String) (r : IRow) (s : Store) (stats : Stats) :
    ∃ l, (processRow today (s, stats) r).1.attendance = s.attendance ++ l ∧
      ∀ a ∈ l, a.service_name = serviceOf r ∧
        attHas s.attendance a.child_id a.service_name a.attendance_date = false := by
  by_cases hrej : rowPhone r = "" ∨ rowName r = ""
  · rw [processRow_reject hrej]; exact ⟨[], by simp, by simp⟩
  · cases hd : rowDate today r with
    | error e => rw [processRow_raise hrej hd]; exact ⟨[], by simp, by simp⟩
    | ok adate =>
      cases adate with
      | d ds =>
        rw [processRow_ok hrej hd]
        obtain ⟨hc, ha, hn⟩ :=
          resolveParent_shape s stats (rowName r) (rowPhone r) (rowGender r)
        obtain ⟨l, e1, p1⟩ := foldSlots_att r
          (resolveParent s stats (rowName r) (rowPhone r) (rowGender r)).2.2 ds [1, 2, 3]
          (resolveParent s stats (rowName r) (rowPhone r) (rowGender r)).1
          (resolveParent s stats (rowName r) (rowPhone r) (rowGender r)).2.1
        refine ⟨l, ?_, ?_⟩
        · rw [e1, ha]
        · intro a hal
          obtain ⟨q1, q2, q3⟩ := p1 a hal
          rw [ha] at q3
          exact ⟨q1, q3⟩
      | NaT =>
        rw [processRow_nat hrej hd]
        obtain ⟨hc, ha, hn⟩ :=
          resolveParent_shape s stats (rowName r) (rowPhone r) (rowGender r)
        have h2 := (runSlots_nat r
          (resolveParent s stats (rowName r) (rowPhone r) (rowGender r)).2.2 [1, 2, 3]
          (resolveParent s stats (rowName r) (rowPhone r) (rowGender r)).1
          (resolveParent s stats (rowName r) (rowPhone r) (rowGender r)).2.1).2.1
        refine ⟨[], ?_, by simp⟩
        rw [List.append_nil, h2, ha]

theorem processChildSlot_records {r : IRow} {pid : Nat} {adate : String} {s : Store}
    {stats : Stats} {n : Nat} (hname : slotName r n ≠ "") :
    ∃ cid,
      (attHas s.attendance cid (serviceOf r) adate = false ∧
        (processChildSlot r pid adate (s, stats) n).1.attendance =
          s.attendance ++ [⟨cid, serviceOf r, adate, true⟩]) ∨
      (attHas s.attendance cid (serviceOf r) adate = true ∧
        (processChildSlot r pid adate (s, stats) n).1.attendance = s.attendance) := by
  unfold processChildSlot
  rw [if_neg hname]
  cases hf : findChild s.children pid (slotName r n) (slotAge r n) with
  | some cid =>
    rw [resolveChild_found hf]
    dsimp only
    unfold recordAtt
    by_cases hh : attHas s.attendance cid (serviceOf r) adate = true
    · rw [if_pos hh]; exact ⟨cid, Or.inr ⟨hh, rfl⟩⟩
    · rw [if_neg hh]
      refine ⟨cid, Or.inl ⟨?_, rfl⟩⟩
      cases hx : attHas s.attendance cid (serviceOf r) adate with
      | false => rfl
      | true => exact absurd hx hh
  | none =>
    rw [resolveChild_new hf]
    dsimp only
    unfold recordAtt
    by_cases hh : attHas s.attendance s.nextChildId (serviceOf r) adate = true
    · rw [if_pos hh]; exact ⟨s.nextChildId, Or.inr ⟨hh, rfl⟩⟩
    · rw [if_neg hh]
      refine ⟨s.nextChildId, Or.inl ⟨?_, rfl⟩⟩
      cases hx : attHas s.attendance s.nextChildId (serviceOf r) adate with
      | false => rfl
      | true => exact absurd hx hh

theorem foldRows_noop (today : String) :
    ∀ (df : List IRow) (s : Store),
    (∀ r ∈ df, RowSettled today r s) → ∀ (stats : Stats),
    (df.foldl (processRow today) (s, stats)).1 = s ∧
    StatsQuiet stats (df.foldl (processRow today) (s, stats)).2 := by
  intro df
  induction df with
  | nil => intro s hset stats; exact ⟨rfl, rfl, rfl, rfl⟩
  | cons x xs ih =>
    intro s hset stats
    simp only [List.foldl_cons]
    obtain ⟨h1, h2⟩ := processRow_settled (hset x (List.mem_cons_self x xs)) stats
    rcases hps : processRow today (s, stats) x with ⟨s1, st1⟩
    rw [hps] at h1 h2
    subst h1
    obtain ⟨g1, g2⟩ := ih s1 (fun r hr => hset r (List.mem_cons_of_mem x hr)) st1
    exact ⟨g1, quiet_trans h2 g2⟩

end Inc

/-- C2: incremental idempotence. Re-processing the same submissions against
the store state left by a first run changes nothing: the resulting database
state (committed and pending) is identical, and the second run's statistics
report zero new parents, zero new children and zero attendance recorded. -/
theorem thm_C2 : ∀ (df : List Inc.IRow) (today : String) (db : Inc.DB),
    (Inc.process_attendance df today ((Inc.process_attendance df today db).1)).1 =
      (Inc.process_attendance df today db).1 ∧
    (Inc.process_attendance df today ((Inc.process_attendance df today db).1)).2.new_parents
      = 0 ∧
    (Inc.process_attendance df today ((Inc.process_attendance df today db).1)).2.new_children
      = 0 ∧
    (Inc.process_attendance df today
      ((Inc.process_attendance df today db).1)).2.attendance_recorded = 0 := by
  intro df today db
  unfold Inc.process_attendance
  dsimp only
  rcases h1 : df.foldl (Inc.processRow today) (db.pending, Inc.initStats df.length)
    with ⟨s1, st1⟩
  dsimp only
  have hsettled : ∀ r ∈ df, Inc.RowSettled today r s1 := by
    intro r hr
    have h := Inc.foldRows_settled today df db.pending (Inc.initStats df.length) r hr
    rw [h1] at h
    exact h
  obtain ⟨h2, q⟩ := Inc.foldRows_noop today df s1 hsettled (Inc.initStats df.length)
  rcases h3 : df.foldl (Inc.processRow today) (s1, Inc.initStats df.length) with ⟨s2, st2⟩
  rw [h3] at h2 q
  dsimp only at h2 q ⊢
  subst h2
  exact ⟨rfl, q.1, q.2.1, q.2.2⟩

theorem digitChar_inj {a b : Nat} (ha : a < 10) (hb : b < 10)
    (h : Nat.digitChar a = Nat.digitChar b) : a = b := by
  interval_cases a <;> interval_cases b <;> first | rfl | (revert h; decide)

theorem digitChar_lt_ten {a : Nat} (ha : a < 10) : Nat.digitChar a ≠ '-' := by
  interval_cases a <;> decide

theorem toDigitsCore_acc (fuel : Nat) :
    ∀ (n : Nat) (ds : List Char),
    Nat.toDigitsCore 10 fuel n ds = Nat.toDigitsCore 10 fuel n [] ++ ds := by
  induction fuel with
  | zero => intro n ds; simp [Nat.toDigitsCore]
  | succ f ih =>
    intro n ds
    unfold Nat.toDigitsCore
    dsimp only
    by_cases h : n / 10 = 0
    · rw [if_pos h, if_pos h]; simp
    · rw [if_neg h, if_neg h, ih (n / 10) (Nat.digitChar (n % 10) :: ds),
        ih (n / 10) [Nat.digitChar (n % 10)]]
      simp

theorem toDigitsCore_eq_natDigits (fuel : Nat) :
    ∀ (n : Nat), n < fuel → Nat.toDigitsCore 10 fuel n [] = natDigits n := by
  induction fuel with
  | zero => intro n h; omega
  | succ f ih =>
    intro n hn
    unfold Nat.toDigitsCore
    dsimp only
    by_cases h : n / 10 = 0
    · rw [if_pos h]
      have hsmall : n < 10 := by omega
      unfold natDigits
      rw [dif_pos hsmall, Nat.mod_eq_of_lt hsmall]
    · rw [if_neg h]
      have hbig : ¬ n < 10 := by
        intro hc
        exact h (Nat.div_eq_of_lt hc)
      have hlt : n / 10 < f := by
        have h1 : n / 10 < n := Nat.div_lt_self (by omega) (by omega)
        omega
      rw [toDigitsCore_acc f (n / 10) [Nat.digitChar (n % 10)], ih (n / 10) hlt]
      conv_rhs => rw [natDigits]
      rw [dif_neg hbig]

theorem natDigits_small {n : Nat} (h : n < 10) : natDigits n = [Nat.digitChar n] := by
  rw [natDigits, dif_pos h]

theorem natDigits_big {n : Nat} (h : ¬ n < 10) :
    natDigits n = natDigits (n / 10) ++ [Nat.digitChar (n % 10)] := by
  conv_lhs => rw [natDigits]
  rw [dif_neg h]

theorem natDigits_ne_nil (n : Nat) : natDigits n ≠ [] := by
  by_cases h : n < 10
  · rw [natDigits_small h]; simp
  · rw [natDigits_big h]; simp

theorem natDigits_inj (n : Nat) : ∀ (m : Nat), natDigits n = natDigits m → n = m := by
  induction n using Nat.strongRecOn with
  | _ n ih =>
    intro m h
    by_cases hn : n < 10 <;> by_cases hm : m < 10
    · rw [natDigits_small hn, natDigits_small hm] at h
      simp only [List.cons.injEq] at h
      exact digitChar_inj hn hm h.1
    · rw [natDigits_small hn, natDigits_big hm] at h
      have := congrArg List.length h
      simp only [List.length_cons, List.length_nil, List.length_append] at this
      have h2 := natDigits_ne_nil (m / 10)
      cases hx : natDigits (m / 10) with
      | nil => exact absurd hx h2
      | cons c cs => rw [hx] at this; simp at this
    · rw [natDigits_big hn, natDigits_small hm] at h
      have := congrArg List.length h
      simp only [List.length_cons, List.length_nil, List.length_append] at this
      have h2 := natDigits_ne_nil (n / 10)
      cases hx : natDigits (n / 10) with
      | nil => exact absurd hx h2
      | cons c cs => rw [hx] at this; simp at this
    · rw [natDigits_big hn, natDigits_big hm] at h
      have hrev := congrArg List.reverse h
      simp only [List.reverse_append, List.reverse_cons, List.reverse_nil,
        List.nil_append, List.cons_append, List.cons.injEq] at hrev
      have hdig : n % 10 = m % 10 :=
        digitChar_inj (Nat.mod_lt n (by omega)) (Nat.mod_lt m (by omega)) hrev.1
      have hquot : n / 10 = m / 10 := by
        have := congrArg List.reverse hrev.2
        simp only [List.reverse_reverse] at this
        exact ih (n / 10) (Nat.div_lt_self (by omega) (by omega)) (m / 10) this
      omega

theorem natRepr_data (n : Nat) : (Nat.repr n).data = natDigits n := by
  show (Nat.toDigits 10 n).asString.data = natDigits n
  unfold Nat.toDigits List.asString
  exact toDigitsCore_eq_natDigits (n + 1) n (Nat.lt_succ_self n)

theorem natRepr_inj {n m : Nat} (h : Nat.repr n = Nat.repr m) : n = m := by
  have h2 := congrArg String.data h
  rw [natRepr_data, natRepr_data] at h2
  exact natDigits_inj n m h2

theorem natDigits_head_digit (n : Nat) :
    ∃ a cs, a < 10 ∧ natDigits n = Nat.digitChar a :: cs := by
  induction n using Nat.strongRecOn with
  | _ n ih =>
    by_cases hn : n < 10
    · exact ⟨n, [], hn, natDigits_small hn⟩
    · obtain ⟨a, cs, ha, hx⟩ := ih (n / 10) (Nat.div_lt_self (by omega) (by omega))
      exact ⟨a, cs ++ [Nat.digitChar (n % 10)], ha,
        by rw [natDigits_big hn, hx]; simp⟩

theorem intToString_inj {a b : Int} (h : toString a = toString b) : a = b := by
  cases a with
  | ofNat m =>
    cases b with
    | ofNat k =>
      have h2 : Nat.repr m = Nat.repr k := h
      rw [natRepr_inj h2]
    | negSucc k =>
      have h2 : Nat.repr m = "-" ++ Nat.repr (k + 1) := h
      have h3 := congrArg String.data h2
      rw [natRepr_data] at h3
      obtain ⟨a2, cs, ha2, hx⟩ := natDigits_head_digit m
      rw [hx] at h3
      rw [String.data_append] at h3
      simp only [List.cons_append, List.cons.injEq] at h3
      exact absurd h3.1 (digitChar_lt_ten ha2)
  | negSucc m =>
    cases b with
    | ofNat k =>
      have h2 : ("-" ++ Nat.repr (m + 1) : String) = Nat.repr k := h
      have h3 := congrArg String.data h2
      rw [natRepr_data k] at h3
      obtain ⟨a2, cs, ha2, hx⟩ := natDigits_head_digit k
      rw [hx] at h3
      rw [String.data_append] at h3
      simp only [List.cons_append, List.cons.injEq] at h3
      exact absurd h3.1.symm (digitChar_lt_ten ha2)
    | negSucc k =>
      have h2 : ("-" ++ Nat.repr (m + 1) : String) = "-" ++ Nat.repr (k + 1) := h
      have h3 := congrArg String.data h2
      rw [String.data_append, String.data_append] at h3
      have h4 := List.append_cancel_left h3
      have h5 := natRepr_inj (String.ext h4)
      have h6 : m = k := by omega
      rw [h6]

theorem string_append_left_cancel {a b c : String} (h : a ++ b = a ++ c) : b = c := by
  have h2 := congrArg String.data h
  rw [String.data_append, String.data_append] at h2
  exact String.ext (List.append_cancel_left h2)

namespace Batch

theorem wasPresent_iff (r : BRow) (n : Nat) :
    wasPresent r n = true ↔ r.checkin n = Cell.num 1 := by
  unfold wasPresent
  cases hc : r.checkin n with
  | missing => simp
  | nan => simp
  | str s => simp
  | num v => simp

theorem slotAttendance_iff (lookup : String → Option Nat) (pid : Nat) (svc : String)
    (r : BRow) (n : Nat) (l : List AttendanceRec)
    (h : slotAttendance lookup pid svc r n = .ok l) :
    l ≠ [] ↔ (slotEmpty r n = false ∧ wasPresent r n = true ∧
      ∃ age cid, (r.childAge n).toIntStrict = .ok age ∧
        lookup (childKey pid (pyUpper (slotName r n)) age) = some cid) := by
  unfold slotAttendance at h
  by_cases hemp : slotEmpty r n = true
  · rw [if_pos hemp] at h
    injection h with h2
    subst h2
    simp [hemp]
  · have hempf : slotEmpty r n = false := by
      cases hx : slotEmpty r n with
      | false => rfl
      | true => exact absurd hx hemp
    rw [if_neg hemp] at h
    cases hage : (r.childAge n).toIntStrict with
    | error e =>
      rw [hage] at h
      dsimp only at h
      exact Except.noConfusion h
    | ok age =>
      rw [hage] at h
      dsimp only at h
      cases hlook : lookup (childKey pid (pyUpper (slotName r n)) age) with
      | none =>
        rw [hlook] at h
        dsimp only at h
        injection h with h2
        subst h2
        constructor
        · intro hne; exact absurd rfl hne
        · rintro ⟨-, -, age2, cid2, hage2, hlook2⟩
          injection hage2 with h3
          subst h3
          rw [hlook] at hlook2
          exact Option.noConfusion hlook2
      | some cid =>
        rw [hlook] at h
        dsimp only at h
        by_cases hwp : wasPresent r n = true
        · rw [if_pos hwp] at h
          injection h with h2
          subst h2
          constructor
          · intro _; exact ⟨hempf, hwp, age, cid, rfl, hlook⟩
          · intro _; simp
        · rw [if_neg hwp] at h
          injection h with h2
          subst h2
          constructor
          · intro hne; exact absurd rfl hne
          · rintro ⟨-, hwp2, -⟩; exact absurd hwp2 hwp

end Batch

theorem childKey_age_inj {pid : Nat} {nm : String} {a1 a2 : Int}
    (h : Batch.childKey pid nm a1 = Batch.childKey pid nm a2) : a1 = a2 := by
  unfold Batch.childKey at h
  exact intToString_inj (string_append_left_cancel h)

theorem dedupKeepFirst_find? {α β : Type} [DecidableEq β] (key : α → β) :
    ∀ (l : List α) (x : α), x ∈ dedupKeepFirst key l →
    l.find? (fun y => key y == key x) = some x := by
  intro l
  induction l with
  | nil => intro x hx; cases hx
  | cons a as ih =>
    intro x hx
    rw [dedupKeepFirst] at hx
    rcases List.mem_cons.mp hx with rfl | hx2
    · rw [List.find?_cons_of_pos _ (by simp)]
    · have hmem := List.mem_filter.mp hx2
      have hne : key x ≠ key a := by simpa using hmem.2
      rw [List.find?_cons_of_neg]
      · exact ih x hmem.1
      · simp only [beq_iff_eq]
        exact fun hc => hne hc.symm

theorem mem_insertById {r x : Batch.BRow} : ∀ {l : List Batch.BRow},
    x ∈ Batch.insertById r l ↔ x = r ∨ x ∈ l := by
  intro l
  induction l with
  | nil => simp [Batch.insertById]
  | cons a as ih =>
    rw [Batch.insertById]
    by_cases h : r.origId ≤ a.origId
    · rw [if_pos h]; simp [List.mem_cons]
    · rw [if_neg h]
      simp only [List.mem_cons, ih]
      tauto

theorem mem_sortById {x : Batch.BRow} : ∀ {l : List Batch.BRow},
    x ∈ Batch.sortById l ↔ x ∈ l := by
  intro l
  induction l with
  | nil => simp [Batch.sortById]
  | cons a as ih =>
    unfold Batch.sortById at ih ⊢
    simp only [List.foldr_cons]
    rw [mem_insertById, ih, List.mem_cons]

theorem parentsFinal_first (sheets : Batch.Sheets) (p : Batch.ParentRec)
    (hp : p ∈ Batch.parentsFinal sheets) :
    ∃ r, (Batch.combined sheets).find? (fun y => y.origId == p.original_id) = some r ∧
      p = Batch.toParentRec (p.parent_id, r) := by
  unfold Batch.parentsFinal at hp
  obtain ⟨pr, hmem, rfl⟩ := List.mem_map.mp hp
  unfold Batch.parentsWithIds at hmem
  obtain ⟨q, hmem2, heq⟩ := List.mem_map.mp hmem
  have hq2 : q.2 = pr.2 := congrArg (fun p => p.2) heq
  have hr : pr.2 ∈ Batch.uniqueParents sheets := by
    have hm := List.mem_map_of_mem Prod.snd hmem2
    rw [List.enum_map_snd] at hm
    rwa [hq2] at hm
  have hr2 : pr.2 ∈ dedupKeepFirst (fun y => y.origId) (Batch.combined sheets) :=
    mem_sortById.mp hr
  exact ⟨pr.2,
    dedupKeepFirst_find? (fun y => y.origId) (Batch.combined sheets) pr.2 hr2, rfl⟩

theorem childrenWithIds_first (sheets : Batch.Sheets) (cw : List (Nat × Batch.ChildRec))
    (allc : List Batch.ChildRec) (hall : Batch.allChildren sheets = .ok allc)
    (hcw : Batch.childrenWithIds sheets = .ok cw) :
    ∀ ic ∈ cw, allc.find? (fun y => y.dedupe_key == ic.2.dedupe_key) = some ic.2 := by
  intro ic hic
  unfold Batch.childrenWithIds Batch.childrenUnique at hcw
  rw [hall] at hcw
  simp only [Except.map] at hcw
  injection hcw with h2
  rw [← h2] at hic
  obtain ⟨q, hmem2, heq⟩ := List.mem_map.mp hic
  have hq2 : q.2 = ic.2 := congrArg (fun p => p.2) heq
  have hc : ic.2 ∈ dedupKeepFirst (fun c => c.dedupe_key) allc := by
    have hm := List.mem_map_of_mem Prod.snd hmem2
    rw [List.enum_map_snd] at hm
    rwa [hq2] at hm
  exact dedupKeepFirst_find? (fun c => c.dedupe_key) allc ic.2 hc

theorem childrenWithIds_nodup (sheets : Batch.Sheets) (cw : List (Nat × Batch.ChildRec))
    (hcw : Batch.childrenWithIds sheets = .ok cw) : (cw.map Prod.fst).Nodup := by
  unfold Batch.childrenWithIds at hcw
  cases hall : Batch.childrenUnique sheets with
  | error e =>
    rw [hall] at hcw
    simp only [Except.map] at hcw
    exact Except.noConfusion hcw
  | ok l =>
    rw [hall] at hcw
    simp only [Except.map] at hcw
    injection hcw with h2
    rw [← h2]
    have hmm : (l.enum.map (fun p => (p.1 + 1, p.2))).map Prod.fst
        = (l.enum.map Prod.fst).map (fun i => i + 1) := by
      rw [List.map_map, List.map_map]
      rfl
    rw [hmm, List.enum_map_fst]
    exact (List.nodup_range _).map (fun a b hab => by omega)

theorem childLookup_some {cw : List (Nat × Batch.ChildRec)} {k : String} {i : Nat}
    (h : Batch.childLookup cw k = some i) :
    ∃ p, p ∈ cw ∧ p.1 = i ∧
      Batch.childKey p.2.parent_id (pyUpper p.2.full_name) p.2.age = k := by
  unfold Batch.childLookup at h
  cases hf : cw.find?
      (fun p => Batch.childKey p.2.parent_id (pyUpper p.2.full_name) p.2.age == k) with
  | none => rw [hf] at h; exact Option.noConfusion h
  | some p =>
    rw [hf] at h
    injection h with h2
    have hp := List.find?_some hf
    exact ⟨p, List.mem_of_find?_eq_some hf, h2, by simpa using hp⟩

namespace Inc

theorem resolveChild_findChild (s : Store) (stats : Stats) (pid : Nat) (nm : String)
    (age : Int) (g : String) :
    findChild (resolveChild s stats pid nm age g).1.children pid nm age =
      some (resolveChild s stats pid nm age g).2.2 := by
  unfold resolveChild
  cases hf : findChild s.children pid nm age with
  | some cid => dsimp only; exact hf
  | none => dsimp only; exact findChild_insert s.children pid nm age g s.nextChildId hf

theorem findChild_congr (cs : List Child) (pid : Nat) {nm nm2 : String} (age : Int)
    (h : pyUpper nm2 = pyUpper nm) : findChild cs pid nm2 age = findChild cs pid nm age := by
  unfold findChild
  rw [h]

theorem findChild_some_rec {cs : List Child} {pid : Nat} {nm : String} {age : Int}
    {cid : Nat} (h : findChild cs pid nm age = some cid) :
    ∃ c, c ∈ cs ∧ c.child_id = cid ∧ c.parent_id = pid ∧ c.age = age := by
  unfold findChild at h
  cases hf : cs.find? (fun c =>
      c.parent_id == pid && pyUpper c.full_name == pyUpper nm && c.age == age) with
  | none => rw [hf] at h; exact Option.noConfusion h
  | some c =>
    rw [hf] at h
    injection h with h2
    have hp := List.find?_some hf
    simp only [Bool.and_eq_true, beq_iff_eq] at hp
    exact ⟨c, List.mem_of_find?_eq_some hf, h2, hp.1.1, hp.2⟩

theorem resolveChild_mem_rec (s : Store) (stats : Stats) (pid : Nat) (nm : String)
    (age : Int) (g : String) :
    ∃ c, c ∈ (resolveChild s stats pid nm age g).1.children ∧
      c.child_id = (resolveChild s stats pid nm age g).2.2 ∧ c.age = age := by
  unfold resolveChild
  cases hf : findChild s.children pid nm age with
  | some cid =>
    dsimp only
    obtain ⟨c, hm, hid, hpid, hage⟩ := findChild_some_rec hf
    exact ⟨c, hm, hid, hage⟩
  | none =>
    dsimp only
    exact ⟨⟨s.nextChildId, pid, nm, age, g⟩, by simp, rfl, rfl⟩

end Inc

/-- C8: key stability and age sensitivity in both modes. Batch: the parent
mapping is a pure function of the original ID; the child lookup is a pure
function of (parent_id, upper-cased name, age), so names equal up to case
resolve alike, while two resolved lookups that differ only in age return
distinct child_ids. Incremental: once a phone has resolved, a later
resolution of the same phone from any extension of the store returns the same
parent_id without inserting; likewise for a child key up to casing of the
(stripped) name; and resolving the same name with a different age against a
well-formed extension returns a distinct child_id. -/
theorem thm_C8 :
    (∀ (sheets : Batch.Sheets) (r1 r2 : Batch.BRow), r1.origId = r2.origId →
      Batch.parentMapping sheets r1.origId = Batch.parentMapping sheets r2.origId) ∧
    (∀ (cw : List (Nat × Batch.ChildRec)) (pid : Nat) (n1 n2 : String) (a : Int),
      pyUpper n1 = pyUpper n2 →
      Batch.childLookup cw (Batch.childKey pid (pyUpper n1) a) =
        Batch.childLookup cw (Batch.childKey pid (pyUpper n2) a)) ∧
    (∀ (sheets : Batch.Sheets) (cw : List (Nat × Batch.ChildRec)) (pid : Nat)
      (nm : String) (a1 a2 : Int) (i1 i2 : Nat),
      Batch.childrenWithIds sheets = .ok cw →
      Batch.childLookup cw (Batch.childKey pid nm a1) = some i1 →
      Batch.childLookup cw (Batch.childKey pid nm a2) = some i2 →
      a1 ≠ a2 → i1 ≠ i2) ∧
    (∀ (s : Inc.Store) (stats : Inc.Stats) (nm phone g : String) (s2 : Inc.Store)
      (stats2 : Inc.Stats) (nm2 g2 : String),
      Inc.Ext (Inc.resolveParent s stats nm phone g).1 s2 →
      (Inc.resolveParent s2 stats2 nm2 phone g2).2.2 =
          (Inc.resolveParent s stats nm phone g).2.2 ∧
        (Inc.resolveParent s2 stats2 nm2 phone g2).1 = s2) ∧
    (∀ (s : Inc.Store) (stats : Inc.Stats) (pid : Nat) (nm : String) (age : Int)
      (g : String) (s2 : Inc.Store) (stats2 : Inc.Stats) (nm2 g2 : String),
      pyUpper nm2 = pyUpper nm →
      Inc.Ext (Inc.resolveChild s stats pid nm age g).1 s2 →
      (Inc.resolveChild s2 stats2 pid nm2 age g2).2.2 =
          (Inc.resolveChild s stats pid nm age g).2.2 ∧
        (Inc.resolveChild s2 stats2 pid nm2 age g2).1 = s2) ∧
    (∀ (s : Inc.Store) (stats : Inc.Stats) (pid : Nat) (nm : String) (a1 a2 : Int)
      (g : String) (s2 : Inc.Store) (stats2 : Inc.Stats) (g2 : String),
      Inc.StoreWF s2 → Inc.Ext (Inc.resolveChild s stats pid nm a1 g).1 s2 → a1 ≠ a2 →
      (Inc.resolveChild s2 stats2 pid nm a2 g2).2.2 ≠
        (Inc.resolveChild s stats pid nm a1 g).2.2) := by
  refine ⟨?_, ?_, ?_, ?_, ?_, ?_⟩
  · intro sheets r1 r2 h; rw [h]
  · intro cw pid n1 n2 a h; rw [h]
  · intro sheets cw pid nm a1 a2 i1 i2 hcw h1 h2 hne heq
    obtain ⟨p1, hm1, hi1, hk1⟩ := childLookup_some h1
    obtain ⟨p2, hm2, hi2, hk2⟩ := childLookup_some h2
    have hnd := childrenWithIds_nodup sheets cw hcw
    have hpeq : p1 = p2 :=
      List.inj_on_of_nodup_map hnd hm1 hm2 (by rw [hi1, hi2, heq])
    rw [hpeq] at hk1
    exact hne (childKey_age_inj (hk1.symm.trans hk2))
  · intro s stats nm phone g s2 stats2 nm2 g2 he
    have hfp : Inc.findParent s2.parents phone =
        some (Inc.resolveParent s stats nm phone g).2.2 :=
      Inc.findParent_ext he (Inc.resolveParent_findParent s stats nm phone g)
    rw [Inc.resolveParent_found hfp]
    exact ⟨rfl, rfl⟩
  · intro s stats pid nm age g s2 stats2 nm2 g2 hnm he
    have hfc : Inc.findChild s2.children pid nm age =
        some (Inc.resolveChild s stats pid nm age g).2.2 :=
      Inc.findChild_ext he (Inc.resolveChild_findChild s stats pid nm age g)
    have hfc2 : Inc.findChild s2.children pid nm2 age =
        some (Inc.resolveChild s stats pid nm age g).2.2 := by
      rw [Inc.findChild_congr s2.children pid age hnm]
      exact hfc
    rw [Inc.resolveChild_found hfc2]
    exact ⟨rfl, rfl⟩
  · intro s stats pid nm a1 a2 g s2 stats2 g2 hwf he hne
    obtain ⟨c1, hm1, hid1, hage1⟩ := Inc.resolveChild_mem_rec s stats pid nm a1 g
    have hm1s : c1 ∈ s2.children := by
      obtain ⟨-, ⟨l, hl⟩, -⟩ := he
      rw [hl]
      exact List.mem_append_left _ hm1
    cases hf : Inc.findChild s2.children pid nm a2 with
    | some cid =>
      rw [Inc.resolveChild_found hf]
      obtain ⟨c2, hm2, hid2, hpid2, hage2⟩ := Inc.findChild_some_rec hf
      intro heq
      have heq2 : cid = (Inc.resolveChild s stats pid nm a1 g).2.2 := heq
      have hceq : c1 = c2 := by
        refine List.inj_on_of_nodup_map hwf.2 hm1s hm2 ?_
        rw [hid1, hid2, heq2]
      rw [hceq] at hage1
      exact hne (hage1.symm.trans hage2)
    | none =>
      rw [Inc.resolveChild_new hf]
      intro heq
      have heq2 : s2.nextChildId = (Inc.resolveChild s stats pid nm a1 g).2.2 := heq
      have hb := hwf.1 c1 hm1s
      rw [hid1, ← heq2] at hb
      exact absurd hb (lt_irrefl _)

/-- C8 witness: each hypothesis-bearing component realised at concrete
inputs: the two-age workbook resolves Jane age 8 and Jane age 9 to child ids
1 and 2, and the incremental resolver re-resolves Alice's phone and Bob's
name (case-varied) to their original ids against the store their first
resolution produced. -/
theorem thm_C8_wit :
    (Batch.childrenWithIds Batch.twoAgeSheets =
      .ok [(1, ⟨1, "Jane", 8, "Female", none, "Child", "1_JANE_8"⟩),
           (2, ⟨1, "Jane", 9, "Female", none, "Child", "1_JANE_9"⟩)] ∧
     Batch.childLookup
        [(1, ⟨1, "Jane", 8, "Female", none, "Child", "1_JANE_8"⟩),
         (2, ⟨1, "Jane", 9, "Female", none, "Child", "1_JANE_9"⟩)]
        (Batch.childKey 1 "JANE" 8) = some 1 ∧
     Batch.childLookup
        [(1, ⟨1, "Jane", 8, "Female", none, "Child", "1_JANE_8"⟩),
         (2, ⟨1, "Jane", 9, "Female", none, "Child", "1_JANE_9"⟩)]
        (Batch.childKey 1 "JANE" 9) = some 2 ∧
     (1 : Nat) ≠ 2) ∧
    (pyUpper "jANE" = pyUpper "Jane" ∧
     Batch.childLookup [(1, Batch.janeRec)] (Batch.childKey 1 (pyUpper "jANE") 8) =
       Batch.childLookup [(1, Batch.janeRec)] (Batch.childKey 1 (pyUpper "Jane") 8)) ∧
    ((Inc.resolveParent
        (Inc.resolveParent Inc.emptyStore (Inc.initStats 0) "Alice" "0801" "Female").1
        (Inc.initStats 0) "Alicia" "0801" "Male").2.2 =
      (Inc.resolveParent Inc.emptyStore (Inc.initStats 0) "Alice" "0801" "Female").2.2) ∧
    (pyUpper "bOB" = pyUpper "Bob" ∧
     (Inc.resolveChild
        (Inc.resolveChild Inc.emptyStore (Inc.initStats 0) 1 "Bob" 7 "Male").1
        (Inc.initStats 0) 1 "bOB" 7 "Female").2.2 =
      (Inc.resolveChild Inc.emptyStore (Inc.initStats 0) 1 "Bob" 7 "Male").2.2) ∧
    ((∀ c ∈ (Inc.resolveChild Inc.emptyStore (Inc.initStats 0) 1 "Bob" 7 "Male").1.children,
        c.child_id <
          (Inc.resolveChild Inc.emptyStore (Inc.initStats 0) 1 "Bob" 7 "Male").1.nextChildId) ∧
     (7 : Int) ≠ 9 ∧
     (Inc.resolveChild
        (Inc.resolveChild Inc.emptyStore (Inc.initStats 0) 1 "Bob" 7 "Male").1
        (Inc.initStats 0) 1 "Bob" 9 "Male").2.2 ≠
      (Inc.resolveChild Inc.emptyStore (Inc.initStats 0) 1 "Bob" 7 "Male").2.2) :=
  ⟨⟨rfl, rfl, rfl,
    thm_C8.2.2.1 Batch.twoAgeSheets
      [(1, ⟨1, "Jane", 8, "Female", none, "Child", "1_JANE_8"⟩),
       (2, ⟨1, "Jane", 9, "Female", none, "Child", "1_JANE_9"⟩)]
      1 "JANE" 8 9 1 2 rfl rfl rfl (by decide)⟩,
   ⟨by decide,
    thm_C8.2.1 [(1, Batch.janeRec)] 1 "jANE" "Jane" 8 (by decide)⟩,
   (thm_C8.2.2.2.1 Inc.emptyStore (Inc.initStats 0) "Alice" "0801" "Female"
      (Inc.resolveParent Inc.emptyStore (Inc.initStats 0) "Alice" "0801" "Female").1
      (Inc.initStats 0) "Alicia" "Male" (Inc.ext_refl _)).1,
   ⟨by decide,
    (thm_C8.2.2.2.2.1 Inc.emptyStore (Inc.initStats 0) 1 "Bob" 7 "Male"
      (Inc.resolveChild Inc.emptyStore (Inc.initStats 0) 1 "Bob" 7 "Male").1
      (Inc.initStats 0) "bOB" "Female" (by decide) (Inc.ext_refl _)).1⟩,
   ⟨by decide, by decide,
    thm_C8.2.2.2.2.2 Inc.emptyStore (Inc.initStats 0) 1 "Bob" 7 9 "Male"
      (Inc.resolveChild Inc.emptyStore (Inc.initStats 0) 1 "Bob" 7 "Male").1
      (Inc.initStats 0) "Male" ⟨by decide, by decide⟩ (Inc.ext_refl _) (by decide)⟩⟩

/-- C9: first sighting wins in both modes. Batch: every exported parent row
carries the attributes of the first source row with its original ID, and
every deduplicated child record is the first collected record with its dedupe
key. Incremental: a sighting of an existing parent or child key writes
nothing - the store comes back unchanged with the existing id - and a whole
run only ever appends table rows, never modifying an existing one. -/
theorem thm_C9 :
    (∀ (sheets : Batch.Sheets) (p : Batch.ParentRec), p ∈ Batch.parentsFinal sheets →
      ∃ r, (Batch.combined sheets).find? (fun y => y.origId == p.original_id) = some r ∧
        p = Batch.toParentRec (p.parent_id, r)) ∧
    (∀ (sheets : Batch.Sheets) (cw : List (Nat × Batch.ChildRec))
      (allc : List Batch.ChildRec), Batch.allChildren sheets = .ok allc →
      Batch.childrenWithIds sheets = .ok cw →
      ∀ ic ∈ cw, allc.find? (fun y => y.dedupe_key == ic.2.dedupe_key) = some ic.2) ∧
    (∀ (s : Inc.Store) (stats : Inc.Stats) (nm phone g : String) (pid : Nat),
      Inc.findParent s.parents phone = some pid →
      Inc.resolveParent s stats nm phone g =
        (s, { stats with existing_parents := stats.existing_parents + 1 }, pid)) ∧
    (∀ (s : Inc.Store) (stats : Inc.Stats) (pid : Nat) (nm : String) (age : Int)
      (g : String) (cid : Nat), Inc.findChild s.children pid nm age = some cid →
      Inc.resolveChild s stats pid nm age g =
        (s, { stats with existing_children := stats.existing_children + 1 }, cid)) ∧
    (∀ (df : List Inc.IRow) (today : String) (db : Inc.DB),
      Inc.Ext db.pending (Inc.process_attendance df today db).1.pending) := by
  refine ⟨parentsFinal_first, childrenWithIds_first, ?_, ?_, ?_⟩
  · intro s stats nm phone g pid h
    exact Inc.resolveParent_found h
  · intro s stats pid nm age g cid h
    exact Inc.resolveChild_found h
  · intro df today db
    unfold Inc.process_attendance
    dsimp only
    rcases h1 : df.foldl (Inc.processRow today) (db.pending, Inc.initStats df.length)
      with ⟨s1, st1⟩
    have h := Inc.foldRows_ext today df db.pending (Inc.initStats df.length)
    rw [h1] at h
    exact h

/-- C9 witness: the first-sighting components realised concretely - the
duplicated Jane workbook and a store already holding Alice and Bob, whose
re-sightings leave the store untouched. -/
theorem thm_C9_wit :
    (∃ r, (Batch.combined Batch.dupSheets).find?
        (fun y => y.origId == (Batch.toParentRec (1, Batch.bJane (.num 1))).original_id)
        = some r ∧
      Batch.toParentRec (1, Batch.bJane (.num 1)) =
        Batch.toParentRec ((Batch.toParentRec (1, Batch.bJane (.num 1))).parent_id, r)) ∧
    ([Batch.janeRec, Batch.janeRec].find?
        (fun y => y.dedupe_key == Batch.janeRec.dedupe_key) = some Batch.janeRec) ∧
    (Inc.resolveParent Inc.storeOne (Inc.initStats 0) "Ally" "0801" "Male" =
      (Inc.storeOne,
       { Inc.initStats 0 with
         existing_parents := (Inc.initStats 0).existing_parents + 1 }, 1)) ∧
    (Inc.resolveChild Inc.storeOne (Inc.initStats 0) 1 "Bob" 7 "Female" =
      (Inc.storeOne,
       { Inc.initStats 0 with
         existing_children := (Inc.initStats 0).existing_children + 1 }, 1)) :=
  ⟨thm_C9.1 Batch.dupSheets (Batch.toParentRec (1, Batch.bJane (.num 1))) (by decide),
   thm_C9.2.1 Batch.dupSheets [(1, Batch.janeRec)] [Batch.janeRec, Batch.janeRec]
     rfl rfl (1, Batch.janeRec) (by decide),
   thm_C9.2.2.1 Inc.storeOne (Inc.initStats 0) "Ally" "0801" "Male" 1 rfl,
   thm_C9.2.2.2.1 Inc.storeOne (Inc.initStats 0) 1 "Bob" 7 "Female" 1 rfl⟩

/-- C3 amended: in batch mode a child slot contributes an attendance record
iff the slot is non-empty, its age parses, its child_id lookup succeeds and
its check-in cell equals the number 1 (not merely a truthy value); in
incremental mode the code reads no check-in indicator: every non-empty child
slot attempts the insert, which lands unless the natural-key triple already
exists. -/
theorem thm_C3 :
    (∀ (r : Inc.IRow) (pid : Nat) (adate : String) (s : Inc.Store) (stats : Inc.Stats)
      (n : Nat), Inc.slotName r n ≠ "" →
      ∃ cid,
        (Inc.attHas s.attendance cid (Inc.serviceOf r) adate = false ∧
          (Inc.processChildSlot r pid adate (s, stats) n).1.attendance =
            s.attendance ++ [⟨cid, Inc.serviceOf r, adate, true⟩]) ∨
        (Inc.attHas s.attendance cid (Inc.serviceOf r) adate = true ∧
          (Inc.processChildSlot r pid adate (s, stats) n).1.attendance = s.attendance)) ∧
    (∀ (lookup : String → Option Nat) (pid : Nat) (svc : String) (r : Batch.BRow)
      (n : Nat) (l : List Batch.AttendanceRec),
      Batch.slotAttendance lookup pid svc r n = .ok l →
      (l ≠ [] ↔ (Batch.slotEmpty r n = false ∧ Batch.wasPresent r n = true ∧
        ∃ age cid, (r.childAge n).toIntStrict = .ok age ∧
          lookup (Batch.childKey pid (pyUpper (Batch.slotName r n)) age) = some cid))) ∧
    (∀ (r : Batch.BRow) (n : Nat), Batch.wasPresent r n = true ↔ r.checkin n = Cell.num 1) :=
  ⟨fun r pid adate s stats n h => Inc.processChildSlot_records h,
   fun lookup pid svc r n l h => Batch.slotAttendance_iff lookup pid svc r n l h,
   Batch.wasPresent_iff⟩

/-- C3 witness: the amended statement realised at concrete inputs - Alice's
non-empty slot 1 against the empty store, and Jane's checked-in slot against a
one-entry lookup table. -/
theorem thm_C3_wit :
    (∃ cid,
      (Inc.attHas Inc.emptyStore.attendance cid (Inc.serviceOf Inc.rowAlice) "2026-02-01"
          = false ∧
        (Inc.processChildSlot Inc.rowAlice 1 "2026-02-01"
          (Inc.emptyStore, Inc.initStats 1) 1).1.attendance =
          Inc.emptyStore.attendance ++
            [⟨cid, Inc.serviceOf Inc.rowAlice, "2026-02-01", true⟩]) ∨
      (Inc.attHas Inc.emptyStore.attendance cid (Inc.serviceOf Inc.rowAlice) "2026-02-01"
          = true ∧
        (Inc.processChildSlot Inc.rowAlice 1 "2026-02-01"
          (Inc.emptyStore, Inc.initStats 1) 1).1.attendance =
          Inc.emptyStore.attendance)) ∧
    ([({ child_id := 1, service_name := "First Service",
         attendance_date := Batch.ATTENDANCE_DATE, check_in_time := none,
         check_out_time := none, was_present := true } : Batch.AttendanceRec)] ≠ [] ↔
      (Batch.slotEmpty (Batch.bJane (.num 1)) 1 = false ∧
       Batch.wasPresent (Batch.bJane (.num 1)) 1 = true ∧
       ∃ age cid, ((Batch.bJane (.num 1)).childAge 1).toIntStrict = .ok age ∧
         Batch.janeLookup
           (Batch.childKey 1 (pyUpper (Batch.slotName (Batch.bJane (.num 1)) 1)) age)
           = some cid)) ∧
    (Batch.wasPresent (Batch.bJane (.num 1)) 1 = true ↔
      (Batch.bJane (.num 1)).checkin 1 = Cell.num 1) :=
  ⟨thm_C3.1 Inc.rowAlice 1 "2026-02-01" Inc.emptyStore (Inc.initStats 1) 1 (by decide),
   thm_C3.2.1 Batch.janeLookup 1 "First Service" (Batch.bJane (.num 1)) 1
     [({ child_id := 1, service_name := "First Service",
         attendance_date := Batch.ATTENDANCE_DATE, check_in_time := none,
         check_out_time := none, was_present := true } : Batch.AttendanceRec)] rfl,
   thm_C3.2.2 (Batch.bJane (.num 1)) 1⟩

/-- C5 amended: in the incremental pipeline a row whose timestamp string
raises at to_datetime is caught at row granularity - the store is untouched
and exactly one error is counted - and over any run the error counter equals
exactly the number of failing rows (so every other row, before or after a
failure, is still processed); an unparsable age there is coerced to 0 rather
than raising. An empty (NaN) timestamp does not raise at to_datetime: it
yields NaT, which reaches the attendance INSERT, so such a row records no
attendance and counts one caught error exactly when it has a non-empty child
slot (a childless NaT row completes cleanly, and the parent and child
resolutions made before the raise stand). In the batch script, by contrast,
one unparsable age aborts the whole run. -/
theorem thm_C5 :
    (∀ (today : String) (r : Inc.IRow) (s : Inc.Store) (stats : Inc.Stats) (e : String),
      ¬(Inc.rowPhone r = "" ∨ Inc.rowName r = "") → Inc.rowDate today r = .error e →
      Inc.processRow today (s, stats) r =
        (s, { stats with errors := stats.errors + 1 })) ∧
    (∀ (df : List Inc.IRow) (today : String) (db : Inc.DB),
      (Inc.process_attendance df today db).2.errors = df.countP (Inc.rowFails today)) ∧
    (∀ (r : Inc.IRow) (n : Nat) (s : String), r.childAge n = Cell.str s →
      pyParseInt s = none → Inc.slotAge r n = 0) ∧
    (∀ (today : String) (r : Inc.IRow) (s : Inc.Store) (stats : Inc.Stats),
      ¬(Inc.rowPhone r = "" ∨ Inc.rowName r = "") →
      Inc.rowDate today r = .ok AttDate.NaT →
      (Inc.processRow today (s, stats) r).1.attendance = s.attendance ∧
      (Inc.processRow today (s, stats) r).2.errors =
        stats.errors +
          (if [1, 2, 3].any (fun n => Inc.slotName r n != "") then 1 else 0)) ∧
    (∃ e, Batch.batchRun Batch.badAgeSheets = Except.error e) := by
  refine ⟨?_, ?_, ?_, ?_, ⟨"invalid literal for int: seven", rfl⟩⟩
  · intro today r s stats e hrej herr
    exact Inc.processRow_raise hrej herr s stats
  · intro df today db
    unfold Inc.process_attendance
    dsimp only
    rcases h1 : df.foldl (Inc.processRow today) (db.pending, Inc.initStats df.length)
      with ⟨s1, st1⟩
    have h := Inc.foldRows_errors today df db.pending (Inc.initStats df.length)
    rw [h1] at h
    simpa [Inc.initStats] using h
  · intro r n s hc hp
    unfold Inc.slotAge
    rw [hc]
    unfold Cell.toIntLossy
    dsimp only
    rw [hp]
    rfl
  · intro today r s stats hrej hd
    rw [Inc.processRow_nat hrej hd]
    constructor
    · have h2 := (Inc.runSlots_nat r
        (Inc.resolveParent s stats (Inc.rowName r) (Inc.rowPhone r)
          (Inc.rowGender r)).2.2 [1, 2, 3]
        (Inc.resolveParent s stats (Inc.rowName r) (Inc.rowPhone r) (Inc.rowGender r)).1
        (Inc.resolveParent s stats (Inc.rowName r) (Inc.rowPhone r)
          (Inc.rowGender r)).2.1).2.1
      rw [h2, (Inc.resolveParent_shape s stats (Inc.rowName r) (Inc.rowPhone r)
        (Inc.rowGender r)).2.1]
    · have h3 := (Inc.runSlots_nat r
        (Inc.resolveParent s stats (Inc.rowName r) (Inc.rowPhone r)
          (Inc.rowGender r)).2.2 [1, 2, 3]
        (Inc.resolveParent s stats (Inc.rowName r) (Inc.rowPhone r) (Inc.rowGender r)).1
        (Inc.resolveParent s stats (Inc.rowName r) (Inc.rowPhone r)
          (Inc.rowGender r)).2.1).2.2.2.2.2.2
      rw [h3, Inc.resolveParent_stats]

/-- C5 witness: the amended statement realised at concrete rows - a row with
an unparsable timestamp string is skipped with one error and no store effect,
a row with age "seven" yields age 0, and a row with an empty (NaN) timestamp
and one child records no attendance and counts one caught error. -/
theorem thm_C5_wit :
    Inc.processRow "2026-02-01" (Inc.emptyStore, Inc.initStats 1) Inc.rowBadStamp =
      (Inc.emptyStore,
       { Inc.initStats 1 with errors := (Inc.initStats 1).errors + 1 }) ∧
    Inc.slotAge Inc.rowBadAge 1 = 0 ∧
    ((Inc.processRow "2026-02-01" (Inc.emptyStore, Inc.initStats 1)
        Inc.rowNanStamp).1.attendance = Inc.emptyStore.attendance ∧
     (Inc.processRow "2026-02-01" (Inc.emptyStore, Inc.initStats 1)
        Inc.rowNanStamp).2.errors = (Inc.initStats 1).errors +
          (if [1, 2, 3].any (fun n => Inc.slotName Inc.rowNanStamp n != "") then 1
           else 0)) :=
  ⟨thm_C5.1 "2026-02-01" Inc.rowBadStamp Inc.emptyStore (Inc.initStats 1) "to_datetime"
     (by decide) rfl,
   thm_C5.2.2.1 Inc.rowBadAge 1 "seven" rfl rfl,
   thm_C5.2.2.2.1 "2026-02-01" Inc.rowNanStamp Inc.emptyStore (Inc.initStats 1)
     (by decide) rfl⟩

/-- C10: a submission row carrying no "Which Service" column records every
attendance fact it produces under the defaulted service name "First Service",
and only triples not already present in the store are inserted, so such rows
merge with genuine First Service attendance for the same child and date. -/
theorem thm_C10 : ∀ (today : String) (r : Inc.IRow) (s : Inc.Store) (stats : Inc.Stats),
    r.whichService = Cell.missing →
    ∃ l, (Inc.processRow today (s, stats) r).1.attendance = s.attendance ++ l ∧
      ∀ a ∈ l, a.service_name = "First Service" ∧
        Inc.attHas s.attendance a.child_id a.service_name a.attendance_date = false := by
  intro today r s stats hsvc
  have hserve : Inc.serviceOf r = "First Service" := by
    unfold Inc.serviceOf; rw [hsvc]; rfl
  obtain ⟨l, e1, p1⟩ := Inc.processRow_att today r s stats
  exact ⟨l, e1, fun a ha => ⟨(p1 a ha).1.trans hserve, (p1 a ha).2⟩⟩

/-- C10 witness: the hypothesis holds and the conclusion is realised at a
concrete serviceless submission against the empty store. -/
theorem thm_C10_wit :
    Inc.rowAlice.whichService = Cell.missing ∧
    (∃ l, (Inc.processRow "2026-02-01" (Inc.emptyStore, Inc.initStats 1)
        Inc.rowAlice).1.attendance = Inc.emptyStore.attendance ++ l ∧
      ∀ a ∈ l, a.service_name = "First Service" ∧
        Inc.attHas Inc.emptyStore.attendance a.child_id a.service_name a.attendance_date
          = false) :=
  ⟨rfl, thm_C10 "2026-02-01" Inc.rowAlice Inc.emptyStore (Inc.initStats 1) rfl⟩

/-- C1: false for the batch script. Feeding the same checked-in source row
(parent 1, child Jane age 8, First Service) twice produces two attendance
records with the identical (child_id, service_name, attendance_date) triple,
while parents and children are deduplicated to one each: the batch path has no
uniqueness constraint on the attendance natural key. -/
theorem thm_C1 :
    (Batch.batchRun Batch.dupSheets).map
      (fun o => (Batch.tripleCount o.attendance 1 "First Service" Batch.ATTENDANCE_DATE,
                 o.children.length, o.parents.length)) = .ok (2, 1, 1) := rfl

/-- C4, as stated, is false: a run that dies after fully processing the first
of two rows has committed nothing - the first row's parent exists only in the
uncommitted transaction state, so its effects are not durable. -/
theorem thm_C4_cex :
    (Inc.runUpTo 1 [Inc.rowAlice, Inc.rowCarol] "2026-02-01"
      (Inc.conn Inc.emptyStore)).1.committed = Inc.emptyStore ∧
    ((Inc.runUpTo 1 [Inc.rowAlice, Inc.rowCarol] "2026-02-01"
      (Inc.conn Inc.emptyStore)).1.pending.parents.map Inc.Parent.full_name) = ["Alice"] := by
  decide

/-- C4 amended: store mutations are committed once per run, not once per row;
a failure at any point mid-run leaves the committed store exactly as it was
before the run, and only the final commit makes the whole run durable. -/
theorem thm_C4 : ∀ (k : Nat) (df : List Inc.IRow) (today : String) (db : Inc.DB),
    (Inc.runUpTo k df today db).1.committed = db.committed ∧
    (Inc.process_attendance df today db).1.committed =
      (Inc.process_attendance df today db).1.pending := by
  intro k df today db
  exact ⟨rfl, rfl⟩

/-- C6: false on the code (and contradicting the code's own "Missing parent
name or phone, skipping" intent): a row whose phone cell is empty (NaN) is not
rejected, because str(NaN) is the non-empty string "nan"; the run records zero
errors, creates a parent whose phone_number is "nan", and records attendance. -/
theorem thm_C6 :
    (Inc.process_attendance [Inc.rowNanPhone] "2026-02-01"
      (Inc.conn Inc.emptyStore)).2.errors = 0 ∧
    (Inc.process_attendance [Inc.rowNanPhone] "2026-02-01"
      (Inc.conn Inc.emptyStore)).1.pending.parents = [⟨1, "Alice", "nan", "Female"⟩] ∧
    (Inc.process_attendance [Inc.rowNanPhone] "2026-02-01"
      (Inc.conn Inc.emptyStore)).1.pending.attendance.length = 1 := by
  decide

/-- C7: false on the code for the incremental mode (contradicting its own
"Skip if no child name provided" intent): a child-name cell that is empty
(NaN) is not skipped, because str(NaN) is "nan"; a Child named "nan" is
created and an attendance row is recorded for it, with zero errors. -/
theorem thm_C7 :
    (Inc.process_attendance [Inc.rowNanChild] "2026-02-01"
      (Inc.conn Inc.emptyStore)).1.pending.children = [⟨1, 1, "nan", 7, "Male"⟩] ∧
    (Inc.process_attendance [Inc.rowNanChild] "2026-02-01"
      (Inc.conn Inc.emptyStore)).1.pending.attendance
      = [⟨1, "First Service", "2026-02-01", true⟩] ∧
    (Inc.process_attendance [Inc.rowNanChild] "2026-02-01"
      (Inc.conn Inc.emptyStore)).2.errors = 0 := by
  decide

/-- C3, as stated, is false twice over: the incremental pipeline records
attendance for a child slot carrying no check-in indicator at all (the code
never reads one), and the batch script records nothing for a present, truthy
check-in value of 2 (it requires equality with 1, not truthiness). -/
theorem thm_C3_cex :
    (Inc.process_attendance [Inc.rowAlice] "2026-02-01"
      (Inc.conn Inc.emptyStore)).1.pending.attendance.length = 1 ∧
    (Batch.batchRun Batch.chk2Sheets).map (fun o => o.attendance.length) = .ok 0 := ⟨rfl, rfl⟩

/-- C5, as stated, is false: the batch script has no per-row exception
handling, so a single unparsable age cell ("seven") aborts the entire run. -/
theorem thm_C5_cex :
    Batch.batchRun Batch.badAgeSheets = .error "invalid literal for int: seven" := rfl

end JC
